import Mathlib

/-!
Verification development for the DelftA prediction-orchestration pipeline
(`delfta/calculator.py`).

The Python source is shallowly embedded below.  Conventions:

* `pybel.Molecule` objects become the `Mol` structure; only the capabilities the
  calculator touches are modelled (atoms with atomic numbers, dimensionality,
  formal charge, hydrogen stripping).  In-place mutation is modelled by explicit
  state passing: a check that may mutate its molecule returns the updated `Mol`.
* External collaborators (the EGNN networks, openbabel's `make3D`/`addh`, the
  xTB baseline binary) are modelled as an `Oracle` of opaque functions; the
  graph-batching interface of `DataLoader`/`EGNN` is modelled by the fact that a
  batched graph network evaluates each molecule's graph independently, emitting
  one output row per graph (global models) or one output per node (`charges`),
  with `batch.ptr` holding cumulative node counts.
* Python floats are modelled as exact rationals `ℚ` (float32 rounding is
  abstracted away; the claims under study are about data-flow, shapes and
  ordering, not rounding).  The `NaN` placeholder is a distinguished
  constructor, not a rational.
* Fallible Python code (exceptions) is modelled with `Except String`.
-/

namespace Delfta

/-- An atom as the calculator sees it: only the atomic number is consulted. -/
structure Atom where
  atomicnum : ℕ
deriving DecidableEq

/-- Shallow model of a `pybel.Molecule` (plus arbitrary non-molecule inputs).
`isPybelMolecule` is false for list entries that are not `pybel.Molecule`
instances (for example `None`); `dim` is `mol.dim`; `charge` is `mol.charge`. -/
structure Mol where
  isPybelMolecule : Bool
  atoms : List Atom
  dim : ℕ
  charge : ℤ
deriving DecidableEq

/-- A value stored in the dictionary returned by `run_xtb_calc`: a scalar
observable or a per-atom vector (partial charges). -/
inductive PyProp where
  | s (q : ℚ)
  | v (l : List ℚ)
deriving DecidableEq

/-- External collaborators of the calculator, specified at their interface:
openbabel mutators, the trained EGNN networks (one output row per molecule for
global-property models, one output per atom for the `charges` models), and the
xTB baseline binary (which may fail). -/
structure Oracle where
  make3D : Mol → Mol
  addh : Mol → Mol
  netScalar : String → Mol → List ℚ
  netAtom : String → Mol → List ℚ
  xtb : Mol → Bool → Except String (List (String × PyProp))

/-- One entry of the pickled `norm.pt` table: `scale` and `location` arrays for
inverse min-max normalization of a multitask model's output columns. -/
structure NormDict where
  scale : List ℚ
  location : List ℚ
deriving DecidableEq

/-- The `_ALLTASKS` constant of the source. -/
def ALLTASKS : List String := ["E_form", "E_homo", "E_lumo", "E_gap", "dipole", "charges"]

/-- Modelled from the spec: `MULTITASK_ENDPOINTS` lives in `delfta/net_utils.py`,
which is not part of the sources under study.  Per the spec, the multitask
group is the task set minus `E_form` and `charges`, and each multitask task has
a fixed, pre-defined column index in the multitask model's 4-wide output. -/
def MULTITASK_ENDPOINTS : List (String × ℕ) :=
  [("E_homo", 0), ("E_lumo", 1), ("E_gap", 2), ("dipole", 3)]

/-- Modelled from the spec: `QMUGS_ATOM_DICT` lives in `delfta/net_utils.py`,
which is not part of the sources under study.  Per the spec it is the supported
element set of the QMugs database (H, C, N, O, F, P, S, Cl, Br, I); the
calculator only tests membership of atomic numbers. -/
def QMUGS_ATOM_DICT : List ℕ := [1, 6, 7, 8, 9, 15, 16, 17, 35, 53]

/-- Python substring test `pat in s`. -/
def strContains (s pat : String) : Bool :=
  (List.range (s.toList.length + 1)).any (fun i => pat.toList.isPrefixOf (s.toList.drop i))

/-- Python `s.rsplit("_", maxsplit=1)[0]`: everything before the last
underscore, or the whole string when there is none. -/
def rsplitBase (s : String) : String :=
  let cs := s.toList
  if cs.contains '_' then ⟨((cs.reverse.dropWhile (fun c => c ≠ '_')).drop 1).reverse⟩ else s

/-- The per-task body of the model-resolution loop in `__init__` (lines 76-94):
map the task to its model family, or raise for an unrecognised task, then
append the learning-mode suffix. -/
def resolveTask (delta : Bool) (task : String) : Except String String := do
  let base ←
    if (List.lookup task MULTITASK_ENDPOINTS).isSome then pure "multitask"
    else if task = "charges" then pure "charges"
    else if task = "E_form" then pure "single_energy"
    else Except.error ("Task name `" ++ task ++ "` not recognised")
  pure (base ++ (if delta then "_delta" else "_direct"))

/-- The model-resolution loop of `__init__` followed by
`self.models = list(set(self.models))`.  A Python `set` iterates in an
unspecified order, so the deduplicated list is modelled up to ordering by
`List.dedup` (one occurrence per identifier). -/
def resolveModels (tasks : List String) (delta : Bool) : Except String (List String) := do
  let ms ← tasks.mapM (resolveTask delta)
  pure ms.dedup

/-- The `DelftaCalculator` instance state that the prediction path reads:
configuration flags, the two normalization tables loaded from `norm.pt`, and
the resolved model list. -/
structure Calc where
  tasks : List String
  delta : Bool
  force3d : Bool
  addh : Bool
  xtbopt : Bool
  normDirect : NormDict
  normDelta : NormDict
  models : List String
deriving DecidableEq

/-- The `self.multitasks` attribute:
`[task for task in self.tasks if task in MULTITASK_ENDPOINTS]`. -/
def Calc.multitasks (c : Calc) : List String :=
  c.tasks.filter (fun t => (List.lookup t MULTITASK_ENDPOINTS).isSome)

/-- `DelftaCalculator.__init__`: normalise `tasks="all"`, resolve the model
list (raising on an unrecognised task name, before any weights are resolved or
any molecule is processed), and store the normalization tables. -/
def initCalc (tasks0 : List String) (delta force3d addh xtbopt : Bool)
    (nd ndl : NormDict) : Except String Calc := do
  let tasks := if tasks0 = ["all"] then ALLTASKS else tasks0
  let models ← resolveModels tasks delta
  pure ⟨tasks, delta, force3d, addh, xtbopt, nd, ndl, models⟩

/-- `_molcheck`: the input is a `pybel.Molecule` and has at least one atom. -/
def molcheck (m : Mol) : Bool :=
  m.isPybelMolecule && decide (0 < m.atoms.length)

/-- `_atomtypecheck`: every atomic number belongs to `QMUGS_ATOM_DICT`. -/
def atomtypecheck (m : Mol) : Bool :=
  m.atoms.all (fun a => QMUGS_ATOM_DICT.contains a.atomicnum)

/-- `_chargecheck`: returns `true` when the molecule carries a non-zero formal
charge (note the source returns `True` for the *bad* case here). -/
def chargecheck (m : Mol) : Bool :=
  decide (m.charge ≠ 0)

/-- `_3dcheck`: returns whether the molecule already has a 3D conformation, and
the (possibly mutated) molecule — when `force3d` is set, a molecule lacking 3D
coordinates is embedded in place via openbabel's `make3D`. -/
def threeDCheck (c : Calc) (orc : Oracle) (m : Mol) : Bool × Mol :=
  if m.dim ≠ 3 then (false, if c.force3d then orc.make3D m else m) else (true, m)

/-- The hydrogen count `sum([True for atom in mol.atoms if atom.atomicnum == 1])`. -/
def countH (m : Mol) : ℕ :=
  (m.atoms.filter (fun a => a.atomicnum = 1)).length

/-- Openbabel's `removeh`: delete the explicit hydrogen atoms. -/
def removeh (m : Mol) : Mol :=
  { m with atoms := m.atoms.filter (fun a => a.atomicnum ≠ 1) }

/-- `_hydrogencheck`: compare the explicit hydrogen count against the count
after a strip/re-add round trip.  The strip and re-add are performed on
`mol.clone`, never on the input molecule, so the returned molecule is the input
unchanged. -/
def hydrogencheck (orc : Oracle) (m : Mol) : Bool × Mol :=
  let nhMol := countH m
  let molCpy := removeh m
  let molCpy := orc.addh molCpy
  let nhCpy := countH molCpy
  (decide (nhMol = nhCpy), m)

/-- The mutable local state of the `_preprocess` loop: the five diagnostic
index lists, the fatal index list, and the molecule list as mutated so far. -/
structure PrepState where
  nonValidMols : List ℕ
  nonValidAtypes : List ℕ
  chargedIdx : List ℕ
  no3d : List ℕ
  noh : List ℕ
  fatal : List ℕ
  molsAfter : List Mol
deriving DecidableEq

def prepInit : PrepState := ⟨[], [], [], [], [], [], []⟩

/-- One iteration of the `for idx, mol in enumerate(mols)` loop of
`_preprocess` (lines 211-240), including the short-circuiting `continue`
statements after each fatal failure. -/
def prepStep (c : Calc) (orc : Oracle) (st : PrepState) (idx : ℕ) (mol : Mol) : PrepState :=
  if !(molcheck mol) then
    { st with nonValidMols := st.nonValidMols ++ [idx], fatal := st.fatal ++ [idx],
              molsAfter := st.molsAfter ++ [mol] }
  else if !(atomtypecheck mol) then
    { st with nonValidAtypes := st.nonValidAtypes ++ [idx], fatal := st.fatal ++ [idx],
              molsAfter := st.molsAfter ++ [mol] }
  else if chargecheck mol then
    { st with chargedIdx := st.chargedIdx ++ [idx], fatal := st.fatal ++ [idx],
              molsAfter := st.molsAfter ++ [mol] }
  else
    let r3 := threeDCheck c orc mol
    let rh := hydrogencheck orc r3.2
    let st := { st with molsAfter := st.molsAfter ++ [rh.2] }
    let st := if !r3.1 then { st with no3d := st.no3d ++ [idx] } else st
    let st := if !rh.1 then { st with noh := st.noh ++ [idx] } else st
    if !r3.1 && !rh.1 && !c.addh then { st with fatal := st.fatal ++ [idx] } else st

/-- The `enumerate` loop of `_preprocess`, with explicit index threading. -/
def prepLoop (c : Calc) (orc : Oracle) : List Mol → ℕ → PrepState → PrepState
  | [], _, st => st
  | m :: ms, idx, st => prepLoop c orc ms (idx + 1) (prepStep c orc st idx m)

/-- The result of `_preprocess`: the diagnostic lists (reported once per call
through the logger), the fatal indices, the surviving molecules, and the input
list as mutated in place. -/
structure PrepResult where
  nonValidMols : List ℕ
  nonValidAtypes : List ℕ
  chargedIdx : List ℕ
  no3d : List ℕ
  noh : List ℕ
  fatal : List ℕ
  goodMols : List Mol
  molsAfter : List Mol
deriving DecidableEq

/-- `_preprocess` (lines 185-289).  Raises on an empty input; otherwise runs
the per-molecule checks and rebuilds
`good_mols = [mol for idx, mol in enumerate(mols) if idx not in fatal]` from
the (possibly mutated) input molecules.  The logger calls are pure side effects
and are not modelled. -/
def preprocess (c : Calc) (orc : Oracle) (mols : List Mol) : Except String PrepResult :=
  if mols.length = 0 then Except.error "No molecules provided."
  else
    let st := prepLoop c orc mols 0 prepInit
    let good := ((st.molsAfter.enum.filter (fun im => !(st.fatal.contains im.1))).map Prod.snd)
    Except.ok ⟨st.nonValidMols, st.nonValidAtypes, st.chargedIdx, st.no3d, st.noh,
               st.fatal, good, st.molsAfter⟩

/-- A value held in the `preds` dictionary of `predict`, keyed by model name:
a stacked 2-D prediction array, or (for `charges` models) the Python list of
per-molecule per-atom arrays. -/
inductive ModelPred where
  | mat (m : List (List ℚ))
  | chlist (l : List (List ℚ))
deriving DecidableEq

/-- A 0-, 1- or 2-dimensional numpy float array, or a Python list of per-atom
arrays (the `charges` entry): the value space of `preds_filtered`. -/
inductive Dense where
  | d0 (q : ℚ)
  | d1 (l : List ℚ)
  | d2 (m : List (List ℚ))
  | dch (l : List (List ℚ))
deriving DecidableEq

/-- Numpy `np.vstack`: raises when given no arrays at all (which happens when
the valid-molecule list is empty, since the `DataLoader` then yields no
batches); otherwise stacks the per-batch matrices. -/
def npVstack (ms : List (List (List ℚ))) : Except String (List (List ℚ)) :=
  match ms with
  | [] => Except.error "need at least one array to concatenate"
  | l => Except.ok l.flatten

/-- Elementwise `row * scale + location` for one output row.  Numpy broadcasts
the 1-D `scale`/`location` over the rows of the stacked 2-D prediction array;
the widths agree because they both equal the model's output width. -/
def rowScale (nd : NormDict) (r : List ℚ) : List ℚ :=
  List.zipWith (fun a b => a + b) (List.zipWith (fun a b => a * b) r nd.scale) nd.location

/-- `_inv_scale` (lines 351-368): `preds * norm_dict["scale"] + norm_dict["location"]`. -/
def invScale (preds : List (List ℚ)) (nd : NormDict) : List (List ℚ) :=
  preds.map (rowScale nd)

/-- Numpy `squeeze` on a 2-D array: removes every axis of extent one, so a
`(1, 1)` array becomes a 0-D scalar array, `(k, 1)` and `(1, n)` become 1-D
vectors, and anything else stays 2-D. -/
def npSqueeze (m : List (List ℚ)) : Dense :=
  if m.length = 1 then
    if (m.headD []).length = 1 then Dense.d0 ((m.headD []).headD 0)
    else Dense.d1 (m.headD [])
  else if m.all (fun r => r.length = 1) then Dense.d1 (m.map (fun r => r.headD 0))
  else Dense.d2 m

/-- Python slice `l[a:b]` (for the in-range, `a ≤ b` uses that occur here). -/
def listSlice (l : List ℚ) (a b : ℕ) : List ℚ :=
  (l.drop a).take (b - a)

/-- The per-batch list comprehension of lines 471-476:
`[y_hat[batch_idx][batch_ptr[idx]:batch_ptr[idx+1]] for idx in range(len(batch_ptr)-1)]`. -/
def ptrSlices (flat : List ℚ) (ptr : List ℕ) : List (List ℚ) :=
  (List.range (ptr.length - 1)).map (fun i => listSlice flat (ptr.getD i 0) (ptr.getD (i + 1) 0))

/-- Fixed-size, order-preserving batching of the valid-molecule list, as
performed by `DataLoader(..., batch_size=batch_size, shuffle=False)`: chunks of
`bs` molecules, the last one possibly shorter, and no batch at all for an empty
dataset.  The fuel argument (always `l.length + 1` at call sites) only bounds
the recursion. -/
def chunkGo (bs : ℕ) : ℕ → List Mol → List (List Mol)
  | 0, _ => []
  | _, [] => []
  | fuel + 1, l => l.take bs :: chunkGo bs fuel (l.drop bs)

def chunk (bs : ℕ) (l : List Mol) : List (List Mol) :=
  chunkGo bs (l.length + 1) l

/-- The `charges`-model branch of the prediction loop (lines 468-477).  For
each batch, `_get_preds` yields the node-level output tensor (the per-atom
outputs of the batch's molecules, concatenated in node order — a batched graph
network evaluates each molecule's graph independently) together with
`batch.ptr`, the cumulative atom counts of the batch.  The slice comprehension
then cuts the flat tensor back into per-molecule arrays. -/
def chargesAgg (orc : Oracle) (name : String) (bs : ℕ) (mols : List Mol) : List (List ℚ) :=
  let batches := chunk bs mols
  let yHat := batches.map (fun b => (b.map (orc.netAtom name)).flatten)
  let gPtr := batches.map (fun b => List.scanl (fun a n => a + n) 0 (b.map (fun m => m.atoms.length)))
  ((yHat.zip gPtr).map (fun fp => ptrSlices fp.1 fp.2)).flatten

/-- One iteration of the model loop of `predict` (lines 457-487): run the named
model over all batches, then either slice the node-level outputs per molecule
(`charges` models) or vstack the per-batch rows and, for `multitask` models,
apply inverse min-max normalization with the table matching the model's mode
suffix.  Weight loading and `model.eval()` are external and have no bearing on
the value computed. -/
def runModel (c : Calc) (orc : Oracle) (mols : List Mol) (bs : ℕ) (name : String) :
    Except String ModelPred :=
  if strContains name "charges" then
    Except.ok (ModelPred.chlist (chargesAgg orc name bs mols))
  else do
    let stacked ← npVstack ((chunk bs mols).map (fun b => b.map (orc.netScalar name)))
    let scaled :=
      if strContains name "multitask" then
        if strContains name "direct" then invScale stacked c.normDirect
        else invScale stacked c.normDelta
      else stacked
    pure (ModelPred.mat scaled)

/-- The whole model loop, producing the `preds` dictionary keyed by model name
(the resolved model names are pairwise distinct). -/
def runModels (c : Calc) (orc : Oracle) (mols : List Mol) (bs : ℕ) :
    Except String (List (String × ModelPred)) :=
  c.models.mapM (fun name => do
    let p ← runModel c orc mols bs name
    pure (name, p))

/-- Python dictionary assignment `d[k] = v`: overwrite in place if the key
exists, else append. -/
def dictSet {α : Type} (d : List (String × α)) (k : String) (v : α) : List (String × α) :=
  if (List.lookup k d).isSome then d.map (fun kv => if kv.1 = k then (k, v) else kv)
  else d ++ [(k, v)]

/-- Helper for the `single_energy` routing branch: `preds[model_name].squeeze()`.
A `charges` model never stores a matrix, so the second arm is unreachable. -/
def npSqueezeM : ModelPred → Dense
  | ModelPred.mat m => npSqueeze m
  | ModelPred.chlist l => Dense.dch l

/-- Helper for the `multitask` routing branch: the column slice
`preds[model_name][:, MULTITASK_ENDPOINTS[task]]`.  Out-of-range indices would
raise in numpy; they cannot occur because every row has the model's output
width.  The `chlist` arm is unreachable. -/
def matColumn : ModelPred → ℕ → List ℚ
  | ModelPred.mat m, j => m.map (fun r => r.getD j 0)
  | ModelPred.chlist _, _ => []

/-- Helper for the `charges` routing branch (a pass-through).  The `mat` arm is
unreachable: `charges` models always store per-molecule lists. -/
def denseOfModel : ModelPred → Dense
  | ModelPred.chlist l => Dense.dch l
  | ModelPred.mat m => Dense.d2 m

/-- The column index `MULTITASK_ENDPOINTS[task]`. -/
def endpointIdx (t : String) : ℕ :=
  (List.lookup t MULTITASK_ENDPOINTS).getD 0

/-- The routing loop of `predict` (lines 489-502), building `preds_filtered`
from `preds`: `single_energy` squeezes into `E_form`, `multitask` slices one
column per requested multitask task, `charges` passes through. -/
def routePreds (c : Calc) (preds : List (String × ModelPred)) : List (String × Dense) :=
  preds.foldl (fun acc kv =>
    let mname := rsplitBase kv.1
    if mname = "single_energy" then
      dictSet acc "E_form" (npSqueezeM kv.2)
    else if mname = "multitask" then
      c.multitasks.foldl (fun acc2 task =>
        dictSet acc2 task (Dense.d1 (matColumn kv.2 (endpointIdx task)))) acc
    else if mname = "charges" then
      dictSet acc "charges" (denseOfModel kv.2)
    else acc) []

/-- The `defaultdict(list)` append `xtb_props[prop].append(val)`. -/
def dictAppend (d : List (String × List PyProp)) (k : String) (v : PyProp) :
    List (String × List PyProp) :=
  if (List.lookup k d).isSome then d.map (fun kv => if kv.1 = k then (kv.1, kv.2 ++ [v]) else kv)
  else d ++ [(k, [v])]

/-- Read access `xtb_props[prop]` on the `defaultdict(list)`. -/
def lookupD (d : List (String × List PyProp)) (k : String) : List PyProp :=
  (List.lookup k d).getD []

/-- `_get_xtb_props` (lines 322-349): run the xTB binary sequentially over the
valid molecules and collect each returned observable into a per-property list.
A failure of `run_xtb_calc` is not caught and propagates (the source carries a
`TODO --> add error propagation` at the call site in `predict`). -/
def getXtbProps (c : Calc) (orc : Oracle) (mols : List Mol) :
    Except String (List (String × List PyProp)) :=
  mols.foldlM (fun d mol => do
    let out ← orc.xtb mol c.xtbopt
    pure (out.foldl (fun d2 kv => dictAppend d2 kv.1 kv.2) d)) []

/-- Numpy `np.array` applied to `xtb_props[prop]` for a scalar observable: the
list of per-molecule scalars becomes a 1-D array.  A list whose elements are
themselves sequences would produce a higher-dimensional array; that shape never
reaches the scalar branch of the delta loop here, so it is mapped to an error. -/
def toArr1 (ps : List PyProp) : Except String (List ℚ) :=
  ps.mapM (fun p =>
    match p with
    | PyProp.s q => Except.ok q
    | PyProp.v _ => Except.error "setting an array element with a sequence")

/-- Numpy addition of two 1-D arrays with broadcasting: equal lengths add
elementwise, a length-one operand broadcasts, anything else raises. -/
def npAdd1 (xs ys : List ℚ) : Except String (List ℚ) :=
  if xs.length = ys.length then Except.ok (List.zipWith (fun a b => a + b) xs ys)
  else if xs.length = 1 then Except.ok (ys.map (fun y => xs.headD 0 + y))
  else if ys.length = 1 then Except.ok (xs.map (fun x => x + ys.headD 0))
  else Except.error "operands could not be broadcast together"

/-- The scalar-task delta correction
`delta_arr + np.array(xtb_props[prop], dtype=np.float32)`: a 0-D learned delta
broadcasts over the baseline column, a 1-D one adds elementwise.  The 2-D and
charges shapes never reach this branch. -/
def addDense (d : Dense) (col : List ℚ) : Except String Dense :=
  match d with
  | Dense.d0 q => Except.ok (Dense.d1 (col.map (fun y => q + y)))
  | Dense.d1 xs => do
      let r ← npAdd1 xs col
      pure (Dense.d1 r)
  | _ => Except.error "unsupported operand shapes"

/-- The per-molecule charges correction `d_arr + np.array(xtb_arr)`: the xTB
per-atom vector adds elementwise (np.array of a scalar would be 0-D and
broadcast). -/
def addChargeProp (darr : List ℚ) (p : PyProp) : Except String (List ℚ) :=
  match p with
  | PyProp.v xs => npAdd1 darr xs
  | PyProp.s q => Except.ok (darr.map (fun x => x + q))

/-- The delta-correction loop of `predict` (lines 504-514), active only in
delta mode: add the xTB baseline to every entry of `preds_filtered`, pairing
the per-molecule charge arrays with `zip`. -/
def deltaCorrect (filtered : List (String × Dense)) (xtbp : List (String × List PyProp)) :
    Except String (List (String × Dense)) :=
  filtered.mapM (fun kv =>
    if kv.1 = "charges" then
      match kv.2 with
      | Dense.dch arrs => do
          let corr ← (arrs.zip (lookupD xtbp "charges")).mapM (fun p => addChargeProp p.1 p.2)
          pure (kv.1, Dense.dch corr)
      | d => pure (kv.1, d)
    else do
      let col ← toArr1 (lookupD xtbp kv.1)
      let d ← addDense kv.2 col
      pure (kv.1, d))

/-- A scalar slot of the final output: the `NaN` placeholder, or a number. -/
inductive ScalarOut where
  | nan
  | val (q : ℚ)
deriving DecidableEq

/-- A charges slot of the final output: the `np.array(NaN)` sentinel, or a
per-atom array. -/
inductive ChargeOut where
  | nanArr
  | arr (l : List ℚ)
deriving DecidableEq

/-- One task's final output sequence. -/
inductive TaskOut where
  | scalars (l : List ScalarOut)
  | charges (l : List ChargeOut)
deriving DecidableEq

/-- The dictionary returned by `predict`, keyed by task name. -/
abbrev FinalPreds := List (String × TaskOut)

/-- The runtime value of `val` in the placeholder-insertion loop for a
non-charges task, after `val = val.tolist()`: `tolist()` of a 1-D array is a
Python list, but `tolist()` of a 0-D array is a bare Python float. -/
inductive ScalarVal where
  | pyfloat (q : ℚ)
  | pylist (l : List ℚ)
deriving DecidableEq

/-- `val.tolist()` on the dense value of a non-charges task.  The `d2`/`dch`
shapes do not reach this point for well-formed model outputs. -/
def tolistD : Dense → Except String ScalarVal
  | Dense.d0 q => Except.ok (ScalarVal.pyfloat q)
  | Dense.d1 l => Except.ok (ScalarVal.pylist l)
  | Dense.d2 _ => Except.error "unsupported nested tolist"
  | Dense.dch _ => Except.error "unsupported charges tolist"

/-- Python `val.pop()` for a non-charges task: a list pops its LAST element
(raising IndexError when empty); a bare float has no `pop` attribute and
raises. -/
def popScalar : ScalarVal → Except String (ℚ × ScalarVal)
  | ScalarVal.pyfloat _ => Except.error "AttributeError: float object has no attribute pop"
  | ScalarVal.pylist l =>
      match l.getLast? with
      | none => Except.error "IndexError: pop from empty list"
      | some q => Except.ok (q, ScalarVal.pylist l.dropLast)

/-- Python `val.pop()` for the charges task: pops the LAST per-molecule array. -/
def popCharge (l : List (List ℚ)) : Except String (List ℚ × List (List ℚ)) :=
  match l.getLast? with
  | none => Except.error "IndexError: pop from empty list"
  | some x => Except.ok (x, l.dropLast)

/-- The placeholder-insertion loop of `predict` (lines 520-528) for a
non-charges task: walk the original positions in order, emitting `NaN` at fatal
positions and `val.pop()` — the last unconsumed dense entry — elsewhere. -/
def assembleScalars (n : ℕ) (fatal : List ℕ) (v : ScalarVal) : Except String (List ScalarOut) := do
  let r ← (List.range n).foldlM (fun st idx =>
    if fatal.contains idx then pure (st.1 ++ [ScalarOut.nan], st.2)
    else do
      let p ← popScalar st.2
      pure (st.1 ++ [ScalarOut.val p.1], p.2)) (([] : List ScalarOut), v)
  pure r.1

/-- The placeholder-insertion loop for the charges task: `np.array(NaN)` at
fatal positions, `val.pop()` elsewhere. -/
def assembleCharges (n : ℕ) (fatal : List ℕ) (v : List (List ℚ)) :
    Except String (List ChargeOut) := do
  let r ← (List.range n).foldlM (fun st idx =>
    if fatal.contains idx then pure (st.1 ++ [ChargeOut.nanArr], st.2)
    else do
      let p ← popCharge st.2
      pure (st.1 ++ [ChargeOut.arr p.1], p.2)) (([] : List ChargeOut), v)
  pure r.1

/-- The final reassembly of `predict` (lines 516-529): for every task, re-expand
the dense (valid-molecules-only) values to the original input length. -/
def assembleAll (n : ℕ) (fatal : List ℕ) (fin : List (String × Dense)) :
    Except String FinalPreds :=
  fin.mapM (fun kv =>
    if kv.1 = "charges" then
      match kv.2 with
      | Dense.dch arrs => do
          let l ← assembleCharges n fatal arrs
          pure (kv.1, TaskOut.charges l)
      | _ => Except.error "unsupported charges value"
    else do
      let v ← tolistD kv.2
      let l ← assembleScalars n fatal v
      pure (kv.1, TaskOut.scalars l))

/-- The list path of `predict` (lines 438-530): preprocess, run xTB over the
valid molecules when in delta mode, run every resolved model, route columns to
tasks, apply the delta correction in delta mode, and re-expand to the input
length.  In direct mode the source never touches `xtb_props`, modelled by the
empty dictionary. -/
def predictCore (c : Calc) (orc : Oracle) (input : List Mol) (bs : ℕ) :
    Except String FinalPreds := do
  let prep ← preprocess c orc input
  let xtbp ← if c.delta then getXtbProps c orc prep.goodMols else pure []
  let preds ← runModels c orc prep.goodMols bs
  let filtered := routePreds c preds
  let finalD ← if c.delta then deltaCorrect filtered xtbp else pure filtered
  assembleAll input.length prep.fatal finalD

/-- The `while not done_flag` loop of `_predict_batch` (lines 387-405): pull up
to `batch_size` molecules from the generator; `done_flag` is set exactly when
`StopIteration` fires while filling the chunk, i.e. when fewer than
`batch_size` items remained (possibly zero — the chunk collected so far, even
when empty, is still passed to `predict`).  The fuel (`stream.length + 1` at
the call site) only bounds the recursion; a positive batch size consumes at
least one molecule per iteration, and a zero batch size fails on its first
iteration, so the fuel is never exhausted. -/
def predictBatchGo (c : Calc) (orc : Oracle) (bs : ℕ) :
    ℕ → List Mol → Except String (List FinalPreds)
  | 0, _ => Except.error "loop fuel exhausted"
  | fuel + 1, stream =>
    if stream.length < bs then do
      let p ← predictCore c orc stream bs
      pure [p]
    else do
      let p ← predictCore c orc (stream.take bs) bs
      let rest ← predictBatchGo c orc bs fuel (stream.drop bs)
      pure (p :: rest)

/-- The charges entries accumulated by `preds[pred_k].extend(batch[pred_k])`. -/
def chargesOf (t : TaskOut) : List ChargeOut :=
  match t with
  | TaskOut.charges l => l
  | TaskOut.scalars _ => []

/-- The accumulation loop of `_predict_batch` (lines 407-418).  The key list
comes from `preds_batch[0]` (the loop body always appended at least one batch
result, so the empty arm is unreachable).  For `charges` the per-batch lists
are extended; for every other task the source calls `batch[pred_k].tolist()`,
but `predict` returns plain Python lists (the `temp` lists built by the
placeholder-insertion loop), and a Python `list` has no `tolist` attribute, so
the call raises. -/
def accumulate (batches : List FinalPreds) : Except String FinalPreds :=
  match batches with
  | [] => Except.error "IndexError: list index out of range"
  | b0 :: _ =>
    (b0.map Prod.fst).mapM (fun key =>
      if key = "charges" then
        Except.ok (key, TaskOut.charges (batches.foldl (fun acc b =>
          acc ++ chargesOf ((List.lookup key b).getD (TaskOut.charges []))) []))
      else
        Except.error "AttributeError: list object has no attribute tolist")

/-- `_predict_batch` (lines 370-418): chunked prediction over a generator,
followed by cross-batch accumulation. -/
def predictBatch (c : Calc) (orc : Oracle) (stream : List Mol) (bs : ℕ) :
    Except String FinalPreds := do
  let bl ← predictBatchGo c orc bs (stream.length + 1) stream
  accumulate bl

/-- The argument of `predict`: a single molecule, a list, a generator (modelled
by the stream of molecules it will yield), or an unsupported value. -/
inductive PInput where
  | single (m : Mol)
  | list (ms : List Mol)
  | gen (ms : List Mol)
  | other (tyName : String)

/-- `predict` (lines 420-530): dispatch on the input type.  A bare molecule is
wrapped in a singleton list and re-dispatched (with the default batch size 32,
as in the source, which drops the caller's `batch_size` on that path). -/
def predict (c : Calc) (orc : Oracle) (input : PInput) (batchSize : ℕ) :
    Except String FinalPreds :=
  match input with
  | PInput.single m => predictCore c orc [m] 32
  | PInput.list ms => predictCore c orc ms batchSize
  | PInput.gen ms => predictBatch c orc ms batchSize
  | PInput.other ty =>
      Except.error ("Invalid input. Expected OEChem molecule, list or generator, but got " ++ ty ++ ".")

end Delfta

namespace Delfta

/-! Concrete molecules, oracles and calculators used by the evaluation
theorems and witnesses. -/

/-- A valid one-atom (carbon) molecule with 3D coordinates and neutral charge. -/
def molA : Mol := ⟨true, [⟨6⟩], 3, 0⟩

/-- A valid two-atom (carbon, oxygen) molecule with 3D coordinates. -/
def molB : Mol := ⟨true, [⟨6⟩, ⟨8⟩], 3, 0⟩

/-- A valid three-atom molecule with 3D coordinates. -/
def molC : Mol := ⟨true, [⟨6⟩, ⟨7⟩, ⟨8⟩], 3, 0⟩

/-- A list entry that is not a `pybel.Molecule` (fails the structure check). -/
def molBad : Mol := ⟨false, [], 0, 0⟩

/-- A molecule with an unsupported element (atomic number 99). -/
def molAtypeBad : Mol := ⟨true, [⟨99⟩], 3, 0⟩

/-- A molecule with a non-zero formal charge. -/
def molCharged : Mol := ⟨true, [⟨6⟩], 3, 1⟩

/-- A valid molecule lacking 3D coordinates (`dim = 2`). -/
def molFlat : Mol := ⟨true, [⟨6⟩], 2, 0⟩

/-- A concrete normalization table of the multitask width. -/
def ndEval : NormDict := ⟨[2, 2, 2, 2], [10, 20, 30, 40]⟩

/-- A deterministic stand-in for the external collaborators: `make3D` embeds by
setting `dim := 3`, `addh` is the identity (the concrete molecules used with it
carry their hydrogens), the single-output networks emit the molecule's atom
count, the multitask network emits four distinct values, the atom-level network
emits `1` per atom, and xTB returns a fixed observable dictionary. -/
def orcEval : Oracle :=
  ⟨fun m => { m with dim := 3 },
   fun m => m,
   fun name m => if strContains name "multitask" then
       [(m.atoms.length : ℚ), (m.atoms.length : ℚ) + 1, (m.atoms.length : ℚ) + 2,
        (m.atoms.length : ℚ) + 3]
     else [(m.atoms.length : ℚ)],
   fun _ m => m.atoms.map (fun _ => (1 : ℚ)),
   fun m _ => Except.ok [("E_form", PyProp.s 1), ("E_homo", PyProp.s 2),
                         ("E_lumo", PyProp.s 3), ("E_gap", PyProp.s 4),
                         ("dipole", PyProp.s 5),
                         ("charges", PyProp.v (m.atoms.map (fun _ => (1 : ℚ) / 2)))]⟩

/-- An oracle whose xTB binary always fails. -/
def orcFail : Oracle :=
  ⟨fun m => { m with dim := 3 },
   fun m => m,
   fun _ m => [(m.atoms.length : ℚ)],
   fun _ m => m.atoms.map (fun _ => (1 : ℚ)),
   fun _ _ => Except.error "xtb: normal termination failed"⟩

/-- A direct-mode calculator requesting only `E_form`. -/
def calcEform : Calc :=
  ⟨["E_form"], false, true, true, false, ndEval, ndEval, ["single_energy_direct"]⟩

/-- A direct-mode calculator requesting only `charges`. -/
def calcCharges : Calc :=
  ⟨["charges"], false, true, true, false, ndEval, ndEval, ["charges_direct"]⟩

/-- A delta-mode calculator requesting only `charges`. -/
def calcChargesDelta : Calc :=
  ⟨["charges"], true, true, true, false, ndEval, ndEval, ["charges_delta"]⟩

/-- The calculator produced by `DelftaCalculator(tasks="all", delta=...)` with
the given normalization tables (see `initCalc_all`). -/
def mkCalcAll (delta : Bool) (nd ndl : NormDict) : Calc :=
  ⟨ALLTASKS, delta, true, true, false, nd, ndl,
   if delta then ["single_energy_delta", "multitask_delta", "charges_delta"]
   else ["single_energy_direct", "multitask_direct", "charges_direct"]⟩

/-- A concrete xTB-observable dictionary for two valid molecules, matching
`orcEval` run over `[molA, molB]`. -/
def xtbpW : List (String × List PyProp) :=
  [("E_form", [PyProp.s 1, PyProp.s 1]), ("E_homo", [PyProp.s 2, PyProp.s 2]),
   ("E_lumo", [PyProp.s 3, PyProp.s 3]), ("E_gap", [PyProp.s 4, PyProp.s 4]),
   ("dipole", [PyProp.s 5, PyProp.s 5]),
   ("charges", [PyProp.v [1/2], PyProp.v [1/2, 1/2]])]

/-- The scalar xTB baseline columns encoded by `xtbpW`. -/
def baseW (t : String) : List ℚ :=
  if t = "E_form" then [1, 1]
  else if t = "E_homo" then [2, 2]
  else if t = "E_lumo" then [3, 3]
  else if t = "E_gap" then [4, 4]
  else if t = "dipole" then [5, 5]
  else []

/-- The per-atom xTB charge baselines encoded by `xtbpW`. -/
def baseChW : List (List ℚ) := [[1/2], [1/2, 1/2]]

/-- Follows the spec's words (§4.2, Model Resolver), for comparison with the
source's `__init__` loop: the task-to-model-family mapping composed with the
learning-mode suffix. -/
def specModelName (delta : Bool) (task : String) : String :=
  (if (List.lookup task MULTITASK_ENDPOINTS).isSome then "multitask"
   else if task = "charges" then "charges"
   else "single_energy") ++ (if delta then "_delta" else "_direct")

/-- Follows the spec's words: the task names the resolver recognises. -/
def specRecognised (task : String) : Prop :=
  (List.lookup task MULTITASK_ENDPOINTS).isSome = true ∨ task = "charges" ∨ task = "E_form"

instance (task : String) : Decidable (specRecognised task) := by
  unfold specRecognised
  infer_instance

end Delfta

namespace Delfta

/-! Basic monadic and string-computation lemmas. -/

@[simp] theorem okBind {α β : Type} (a : α) (f : α → Except String β) :
    (Except.ok a >>= f) = f a := rfl

@[simp] theorem errBind {α β : Type} (e : String) (f : α → Except String β) :
    ((Except.error e : Except String α) >>= f) = Except.error e := rfl

@[simp] theorem pureIsOk {α : Type} (a : α) : (pure a : Except String α) = Except.ok a := rfl

@[simp] theorem contains_sed_charges : strContains "single_energy_delta" "charges" = false := by decide

@[simp] theorem contains_sed_multitask : strContains "single_energy_delta" "multitask" = false := by decide

@[simp] theorem contains_sdi_charges : strContains "single_energy_direct" "charges" = false := by decide

@[simp] theorem contains_sdi_multitask : strContains "single_energy_direct" "multitask" = false := by decide

@[simp] theorem contains_mtd_charges : strContains "multitask_delta" "charges" = false := by decide

@[simp] theorem contains_mtd_multitask : strContains "multitask_delta" "multitask" = true := by decide

@[simp] theorem contains_mtd_direct : strContains "multitask_delta" "direct" = false := by decide

@[simp] theorem contains_mti_charges : strContains "multitask_direct" "charges" = false := by decide

@[simp] theorem contains_mti_multitask : strContains "multitask_direct" "multitask" = true := by decide

@[simp] theorem contains_mti_direct : strContains "multitask_direct" "direct" = true := by decide

@[simp] theorem contains_chd_charges : strContains "charges_delta" "charges" = true := by decide

@[simp] theorem contains_chi_charges : strContains "charges_direct" "charges" = true := by decide

@[simp] theorem rsplit_sed : rsplitBase "single_energy_delta" = "single_energy" := by decide

@[simp] theorem rsplit_sdi : rsplitBase "single_energy_direct" = "single_energy" := by decide

@[simp] theorem rsplit_mtd : rsplitBase "multitask_delta" = "multitask" := by decide

@[simp] theorem rsplit_mti : rsplitBase "multitask_direct" = "multitask" := by decide

@[simp] theorem rsplit_chd : rsplitBase "charges_delta" = "charges" := by decide

@[simp] theorem rsplit_chi : rsplitBase "charges_direct" = "charges" := by decide

/-- Sanity link between the structure literal `mkCalcAll` and `__init__`. -/
theorem initCalc_all (d : Bool) (nd ndl : NormDict) :
    initCalc ["all"] d true true false nd ndl = Except.ok (mkCalcAll d nd ndl) := by
  cases d <;> rfl

/-- Sanity link for the single-task direct calculator used in evaluations. -/
theorem initCalc_eform :
    initCalc ["E_form"] false true true false ndEval ndEval = Except.ok calcEform := rfl

/-- Sanity link for the charges-only calculators used in evaluations. -/
theorem initCalc_charges :
    initCalc ["charges"] false true true false ndEval ndEval = Except.ok calcCharges ∧
    initCalc ["charges"] true true true false ndEval ndEval = Except.ok calcChargesDelta :=
  ⟨rfl, rfl⟩

/-! Batching lemmas: the DataLoader partition is an order-preserving partition
of the valid molecules. -/

theorem chunkGo_flatten (bs : ℕ) (hbs : 0 < bs) :
    ∀ (fuel : ℕ) (l : List Mol), l.length < fuel → (chunkGo bs fuel l).flatten = l := by
  intro fuel
  induction fuel with
  | zero => intro l hl; omega
  | succ n ih =>
    intro l hl
    cases l with
    | nil => rfl
    | cons x xs =>
      have hdrop : ((x :: xs).drop bs).length < n := by
        have := List.length_drop bs (x :: xs)
        simp at hl ⊢
        omega
      calc (chunkGo bs (n + 1) (x :: xs)).flatten
          = (x :: xs).take bs ++ (chunkGo bs n ((x :: xs).drop bs)).flatten := by
            rfl
        _ = (x :: xs).take bs ++ (x :: xs).drop bs := by rw [ih _ hdrop]
        _ = x :: xs := List.take_append_drop _ _

theorem chunk_flatten (bs : ℕ) (hbs : 0 < bs) (l : List Mol) :
    (chunk bs l).flatten = l :=
  chunkGo_flatten bs hbs (l.length + 1) l (Nat.lt_succ_self _)

theorem chunk_ne_nil (bs : ℕ) (l : List Mol) (hl : l ≠ []) : chunk bs l ≠ [] := by
  cases l with
  | nil => exact absurd rfl hl
  | cons x xs => simp [chunk, chunkGo]

theorem mem_of_mem_chunk (bs : ℕ) (hbs : 0 < bs) (l : List Mol) (b : List Mol)
    (hb : b ∈ chunk bs l) (m : Mol) (hm : m ∈ b) : m ∈ l := by
  have : m ∈ (chunk bs l).flatten := List.mem_flatten.mpr ⟨b, hb, hm⟩
  rwa [chunk_flatten bs hbs] at this

/-- Stacking the per-batch rows of a per-molecule row function recovers the
rows in valid-molecule order. -/
theorem npVstack_chunk (bs : ℕ) (hbs : 0 < bs) (mols : List Mol) (hne : mols ≠ [])
    (f : Mol → List ℚ) :
    npVstack ((chunk bs mols).map (fun b => b.map f)) = Except.ok (mols.map f) := by
  have hch := chunk_ne_nil bs mols hne
  cases hc : chunk bs mols with
  | nil => exact absurd hc hch
  | cons b bsl =>
    have hflat : ((b :: bsl).map (fun b2 => b2.map f)).flatten = mols.map f := by
      rw [← List.map_flatten, ← hc, chunk_flatten bs hbs]
    simp only [List.map_cons, List.flatten_cons] at hflat
    simp only [npVstack, hc, List.map_cons, List.flatten_cons]
    rw [hflat]

end Delfta

namespace Delfta

/-! Per-atom slicing lemmas: cutting the flat node-level output at the
`batch.ptr` boundaries recovers the per-molecule arrays. -/

theorem ptrSlices_cons (flat : List ℚ) (a b : ℕ) (t : List ℕ) :
    ptrSlices flat (a :: b :: t) = listSlice flat a b :: ptrSlices flat (b :: t) := by
  unfold ptrSlices
  simp only [List.length_cons, Nat.add_sub_cancel, List.range_succ_eq_map, List.map_cons,
    List.map_map, List.getD_cons_zero, List.getD_cons_succ]
  refine congrArg₂ List.cons rfl ?_
  apply List.map_congr_left
  intro i hi
  simp [Function.comp, List.getD_cons_succ]

theorem ptrSlices_scanl (xss : List (List ℚ)) :
    ∀ (pre : List ℚ),
      ptrSlices (pre ++ xss.flatten)
        (List.scanl (fun a n => a + n) pre.length (xss.map List.length)) = xss := by
  induction xss with
  | nil => intro pre; rfl
  | cons x xs ih =>
    intro pre
    have hscan : List.scanl (fun a n => a + n) pre.length ((x :: xs).map List.length) =
        pre.length :: List.scanl (fun a n => a + n) (pre.length + x.length) (xs.map List.length) := by
      simp [List.scanl_cons]
    rw [hscan]
    obtain ⟨r2, hr2⟩ : ∃ r2, List.scanl (fun a n => a + n) (pre.length + x.length)
        (xs.map List.length) = (pre.length + x.length) :: r2 := by
      cases xs with
      | nil => exact ⟨[], by simp [List.scanl_nil]⟩
      | cons y ys =>
          exact ⟨List.scanl (fun a n => a + n) (pre.length + x.length + y.length)
            (ys.map List.length), by simp [List.scanl_cons]⟩
    rw [hr2, ptrSlices_cons, ← hr2]
    have hslice : listSlice (pre ++ (x :: xs).flatten) pre.length (pre.length + x.length) = x := by
      show ((pre ++ (x ++ xs.flatten)).drop pre.length).take (pre.length + x.length - pre.length) = x
      rw [List.drop_left, Nat.add_sub_cancel_left, List.take_left]
    have htail : ptrSlices (pre ++ (x :: xs).flatten)
        (List.scanl (fun a n => a + n) (pre.length + x.length) (xs.map List.length)) = xs := by
      have h2 := ih (pre ++ x)
      rw [List.length_append] at h2
      have hflat2 : pre ++ (x :: xs).flatten = (pre ++ x) ++ xs.flatten := by
        simp [List.append_assoc]
      rw [hflat2]
      exact h2
    rw [hslice, htail]

/-- The `charges` aggregation recovers exactly the per-molecule atom-level
outputs, in valid-molecule order, provided the network emits one output per
atom (which the batched graph network does by construction). -/
theorem chargesAgg_eq (orc : Oracle) (name : String) (bs : ℕ) (hbs : 0 < bs)
    (mols : List Mol)
    (hatom : ∀ m ∈ mols, (orc.netAtom name m).length = m.atoms.length) :
    chargesAgg orc name bs mols = mols.map (orc.netAtom name) := by
  have key : ∀ (L : List (List Mol)), (∀ b ∈ L, ∀ m ∈ b, m ∈ mols) →
      ((L.map (fun b => (b.map (orc.netAtom name)).flatten)).zip
        (L.map (fun b => List.scanl (fun a n => a + n) 0 (b.map (fun m => m.atoms.length))))).map
        (fun fp => ptrSlices fp.1 fp.2) = L.map (fun b => b.map (orc.netAtom name)) := by
    intro L
    induction L with
    | nil => intro _; rfl
    | cons b L ih =>
      intro hmem
      simp only [List.map_cons, List.zip_cons_cons]
      refine congrArg₂ List.cons ?_ (ih ?_)
      · have hlens : b.map (fun m => m.atoms.length) =
            (b.map (orc.netAtom name)).map List.length := by
          rw [List.map_map]
          apply List.map_congr_left
          intro m hm
          exact (hatom m (hmem b (List.mem_cons_self b L) m hm)).symm
        show ptrSlices ((b.map (orc.netAtom name)).flatten)
            (List.scanl (fun a n => a + n) 0 (b.map (fun m => m.atoms.length))) =
          b.map (orc.netAtom name)
        rw [hlens]
        have h0 := ptrSlices_scanl (b.map (orc.netAtom name)) []
        simpa using h0
      · intro b2 hb2 m hm
        exact hmem b2 (List.mem_cons_of_mem _ hb2) m hm
  unfold chargesAgg
  dsimp only
  rw [key (chunk bs mols) (fun b hb m hm => mem_of_mem_chunk bs hbs mols b hb m hm)]
  rw [← List.map_flatten, chunk_flatten bs hbs]

end Delfta

namespace Delfta

/-! Model-loop and routing lemmas. -/

/-- The non-`charges` branch of the model loop: stack per-batch rows and apply
inverse scaling exactly for `multitask` models (the table chosen by the
mode suffix of the model name). -/
theorem runModel_global (c : Calc) (orc : Oracle) (mols : List Mol) (bs : ℕ) (name : String)
    (hch : strContains name "charges" = false) (hbs : 0 < bs) (hne : mols ≠ []) :
    runModel c orc mols bs name = Except.ok (ModelPred.mat
      (if strContains name "multitask" = true then
        (if strContains name "direct" = true then invScale (mols.map (orc.netScalar name)) c.normDirect
         else invScale (mols.map (orc.netScalar name)) c.normDelta)
       else mols.map (orc.netScalar name))) := by
  unfold runModel
  rw [hch]
  simp only [Bool.false_eq_true, if_false]
  rw [npVstack_chunk bs hbs mols hne (orc.netScalar name)]
  simp only [okBind]
  by_cases hmt : strContains name "multitask" = true
  · by_cases hdir : strContains name "direct" = true
    · simp [hmt, hdir]
    · simp [hmt, hdir]
  · simp [hmt]

/-- The `charges` branch of the model loop, rewritten through the slicing
round trip. -/
theorem runModel_charges (c : Calc) (orc : Oracle) (mols : List Mol) (bs : ℕ) (name : String)
    (hch : strContains name "charges" = true) (hbs : 0 < bs)
    (hatom : ∀ m ∈ mols, (orc.netAtom name m).length = m.atoms.length) :
    runModel c orc mols bs name = Except.ok (ModelPred.chlist (mols.map (orc.netAtom name))) := by
  unfold runModel
  rw [hch]
  simp only [if_true]
  rw [chargesAgg_eq orc name bs hbs mols hatom]

/-- The routing step for the full-task calculator: the stacked `single_energy`
output squeezes into `E_form`, the four multitask columns are sliced at their
fixed indices, and `charges` passes through. -/
theorem routePreds_all (d : Bool) (nd ndl : NormDict) (A B : List (List ℚ))
    (C : List (List ℚ)) :
    routePreds (mkCalcAll d nd ndl)
      [((if d then "single_energy_delta" else "single_energy_direct"), ModelPred.mat A),
       ((if d then "multitask_delta" else "multitask_direct"), ModelPred.mat B),
       ((if d then "charges_delta" else "charges_direct"), ModelPred.chlist C)] =
    [("E_form", npSqueeze A),
     ("E_homo", Dense.d1 (B.map (fun r => r.getD 0 0))),
     ("E_lumo", Dense.d1 (B.map (fun r => r.getD 1 0))),
     ("E_gap", Dense.d1 (B.map (fun r => r.getD 2 0))),
     ("dipole", Dense.d1 (B.map (fun r => r.getD 3 0))),
     ("charges", Dense.dch C)] := by
  cases d <;> rfl

/-- Pointwise description of one inverse-scaled output entry. -/
theorem rowScale_getD (nd : NormDict) (r : List ℚ) (j : ℕ) (hr : j < r.length)
    (hs : j < nd.scale.length) (hl : j < nd.location.length) :
    (rowScale nd r).getD j 0 = r.getD j 0 * nd.scale.getD j 0 + nd.location.getD j 0 := by
  have h1 : j < (List.zipWith (fun a b => a * b) r nd.scale).length := by
    rw [List.length_zipWith]
    omega
  have h2 : j < (rowScale nd r).length := by
    unfold rowScale
    rw [List.length_zipWith, List.length_zipWith]
    simp only [lt_inf_iff]
    exact ⟨⟨hr, hs⟩, hl⟩
  unfold rowScale at h2 ⊢
  rw [List.getD_eq_getElem?_getD, List.getElem?_eq_getElem h2,
    List.getD_eq_getElem?_getD r, List.getElem?_eq_getElem hr,
    List.getD_eq_getElem?_getD nd.scale, List.getElem?_eq_getElem hs,
    List.getD_eq_getElem?_getD nd.location, List.getElem?_eq_getElem hl]
  simp only [Option.getD_some]
  rw [List.getElem_zipWith, List.getElem_zipWith]

/-- Numpy `squeeze` of a one-column stacked output: a single row squeezes to a
0-D scalar, more rows to a 1-D vector. -/
theorem npSqueeze_col (rows : List (List ℚ)) (h : ∀ r ∈ rows, r.length = 1) :
    npSqueeze rows = if rows.length = 1 then Dense.d0 ((rows.headD []).headD 0)
      else Dense.d1 (rows.map (fun r => r.headD 0)) := by
  unfold npSqueeze
  by_cases h1 : rows.length = 1
  · cases rows with
    | nil => simp at h1
    | cons r t =>
      have ht : t = [] := by simpa using h1
      subst ht
      have hr : r.length = 1 := h r (List.mem_cons_self r [])
      simp [hr]
  · have hall : (rows.all fun r => decide (r.length = 1)) = true := by
      rw [List.all_eq_true]
      intro r hr
      exact decide_eq_true (h r hr)
    rw [if_neg h1, if_pos hall, if_neg h1]

end Delfta

namespace Delfta

/-! Delta-correction lemmas. -/

/-- Building a numpy array from a column of scalar observables succeeds and
returns the column. -/
theorem toArr1_map_s (l : List ℚ) : toArr1 (l.map PyProp.s) = Except.ok l := by
  induction l with
  | nil => rfl
  | cons q t ih =>
    simp only [List.map_cons, toArr1, List.mapM_cons]
    simp only [toArr1] at ih
    rw [ih]
    rfl

/-- Elementwise addition of two equal-length 1-D arrays. -/
theorem npAdd1_eq (xs ys : List ℚ) (h : xs.length = ys.length) :
    npAdd1 xs ys = Except.ok (List.zipWith (fun a b => a + b) xs ys) := by
  unfold npAdd1
  rw [if_pos h]

/-- The per-molecule charges correction over zipped per-atom arrays: when every
pair has matching lengths, the whole `mapM` succeeds with the elementwise sums. -/
theorem zipAdd_mapM (xs ys : List (List ℚ))
    (h : List.Forall₂ (fun a b => a.length = b.length) xs ys) :
    (xs.zip (ys.map PyProp.v)).mapM (fun p => addChargeProp p.1 p.2) =
      Except.ok (List.zipWith (fun a b => List.zipWith (fun x y => x + y) a b) xs ys) := by
  induction h with
  | nil => rfl
  | cons hlen htail ih =>
    simp only [List.map_cons, List.zip_cons_cons, List.mapM_cons]
    rw [ih]
    simp only [addChargeProp]
    rw [npAdd1_eq _ _ hlen]
    rfl

/-- Lengths of the corrected per-molecule charge arrays. -/
theorem zipAdd_lengths (mols : List Mol) (f : Mol → List ℚ) (ys : List (List ℚ))
    (hf : ∀ m ∈ mols, (f m).length = m.atoms.length)
    (h : List.Forall₂ (fun m b => b.length = m.atoms.length) mols ys) :
    (List.zipWith (fun a b => List.zipWith (fun x y => x + y) a b) (mols.map f) ys).map
        List.length = mols.map (fun m => m.atoms.length) := by
  induction h with
  | nil => rfl
  | @cons m b ms bs hlen htail ih =>
    simp only [List.map_cons, List.zipWith_cons_cons]
    have hm : (f m).length = m.atoms.length := hf m (List.mem_cons_self m ms)
    rw [ih (fun m2 hm2 => hf m2 (List.mem_cons_of_mem _ hm2))]
    simp [List.length_zipWith, hm, hlen]

/-- The corrected-array length hypothesis transported to the network outputs. -/
theorem forall2_map_left (mols : List Mol) (f : Mol → List ℚ) (ys : List (List ℚ))
    (hf : ∀ m ∈ mols, (f m).length = m.atoms.length)
    (h : List.Forall₂ (fun m b => b.length = m.atoms.length) mols ys) :
    List.Forall₂ (fun a b => a.length = b.length) (mols.map f) ys := by
  induction h with
  | nil => exact List.Forall₂.nil
  | @cons m b ms bs hlen htail ih =>
    simp only [List.map_cons]
    exact List.Forall₂.cons (by rw [hf m (List.mem_cons_self m ms), hlen])
      (ih (fun m2 hm2 => hf m2 (List.mem_cons_of_mem _ hm2)))

end Delfta

namespace Delfta

/-! Baseline-failure propagation. -/

/-- The sequential xTB loop fails with the first molecule whose external call
fails, whatever observables were already accumulated. -/
theorem xtbLoop_error (c : Calc) (orc : Oracle) (post : List Mol) (m : Mol) (e : String)
    (herr : orc.xtb m c.xtbopt = Except.error e) :
    ∀ (pre : List Mol), (∀ m2 ∈ pre, (orc.xtb m2 c.xtbopt).isOk = true) →
    ∀ (d : List (String × List PyProp)),
      List.foldlM (fun d mol => do
        let out ← orc.xtb mol c.xtbopt
        pure (out.foldl (fun d2 kv => dictAppend d2 kv.1 kv.2) d)) d (pre ++ m :: post) =
      Except.error e := by
  intro pre
  induction pre with
  | nil =>
    intro _ d
    simp only [List.nil_append, List.foldlM_cons, herr, errBind]
  | cons p t ih =>
    intro hpre d
    have hp : (orc.xtb p c.xtbopt).isOk = true := hpre p (List.mem_cons_self p t)
    cases hx : orc.xtb p c.xtbopt with
    | error e2 => rw [hx] at hp; simp [Except.isOk, Except.toBool] at hp
    | ok out =>
      simp only [List.cons_append, List.foldlM_cons, hx, okBind, pureIsOk]
      exact ih (fun m2 hm2 => hpre m2 (List.mem_cons_of_mem _ hm2)) _

/-- `_get_xtb_props` aborts with the first failing baseline call. -/
theorem getXtbProps_error (c : Calc) (orc : Oracle) (pre post : List Mol) (m : Mol) (e : String)
    (hpre : ∀ m2 ∈ pre, (orc.xtb m2 c.xtbopt).isOk = true)
    (herr : orc.xtb m c.xtbopt = Except.error e) :
    getXtbProps c orc (pre ++ m :: post) = Except.error e := by
  unfold getXtbProps
  exact xtbLoop_error c orc post m e herr pre hpre []

/-! Projection lemmas for one `_preprocess` loop iteration: which diagnostic
lists receive the current index, under exactly which check outcomes. -/

theorem prepStep_nonValidMols (c : Calc) (orc : Oracle) (st : PrepState) (idx : ℕ) (mol : Mol) :
    (prepStep c orc st idx mol).nonValidMols =
      if molcheck mol = false then st.nonValidMols ++ [idx] else st.nonValidMols := by
  unfold prepStep
  by_cases h1 : molcheck mol <;> by_cases h2 : atomtypecheck mol <;>
    by_cases h3 : chargecheck mol <;>
      simp [h1, h2, h3, apply_ite PrepState.nonValidMols]

theorem prepStep_nonValidAtypes (c : Calc) (orc : Oracle) (st : PrepState) (idx : ℕ) (mol : Mol) :
    (prepStep c orc st idx mol).nonValidAtypes =
      if molcheck mol = true ∧ atomtypecheck mol = false
        then st.nonValidAtypes ++ [idx] else st.nonValidAtypes := by
  unfold prepStep
  by_cases h1 : molcheck mol <;> by_cases h2 : atomtypecheck mol <;>
    by_cases h3 : chargecheck mol <;>
      simp [h1, h2, h3, apply_ite PrepState.nonValidAtypes]

theorem prepStep_chargedIdx (c : Calc) (orc : Oracle) (st : PrepState) (idx : ℕ) (mol : Mol) :
    (prepStep c orc st idx mol).chargedIdx =
      if molcheck mol = true ∧ atomtypecheck mol = true ∧ chargecheck mol = true
        then st.chargedIdx ++ [idx] else st.chargedIdx := by
  unfold prepStep
  by_cases h1 : molcheck mol <;> by_cases h2 : atomtypecheck mol <;>
    by_cases h3 : chargecheck mol <;>
      simp [h1, h2, h3, apply_ite PrepState.chargedIdx]

theorem prepStep_no3d (c : Calc) (orc : Oracle) (st : PrepState) (idx : ℕ) (mol : Mol) :
    (prepStep c orc st idx mol).no3d =
      if molcheck mol = true ∧ atomtypecheck mol = true ∧ chargecheck mol = false ∧
          (threeDCheck c orc mol).1 = false
        then st.no3d ++ [idx] else st.no3d := by
  unfold prepStep
  by_cases h1 : molcheck mol <;> by_cases h2 : atomtypecheck mol <;>
    by_cases h3 : chargecheck mol <;>
      by_cases h4 : (threeDCheck c orc mol).1 <;>
        simp [h1, h2, h3, h4, apply_ite PrepState.no3d]

theorem prepStep_noh (c : Calc) (orc : Oracle) (st : PrepState) (idx : ℕ) (mol : Mol) :
    (prepStep c orc st idx mol).noh =
      if molcheck mol = true ∧ atomtypecheck mol = true ∧ chargecheck mol = false ∧
          (hydrogencheck orc (threeDCheck c orc mol).2).1 = false
        then st.noh ++ [idx] else st.noh := by
  unfold prepStep
  by_cases h1 : molcheck mol <;> by_cases h2 : atomtypecheck mol <;>
    by_cases h3 : chargecheck mol <;>
      by_cases h4 : (threeDCheck c orc mol).1 <;>
        by_cases h5 : (hydrogencheck orc (threeDCheck c orc mol).2).1 <;>
          simp [h1, h2, h3, h4, h5, apply_ite PrepState.noh]

theorem prepStep_fatal (c : Calc) (orc : Oracle) (st : PrepState) (idx : ℕ) (mol : Mol) :
    (prepStep c orc st idx mol).fatal =
      if molcheck mol = false ∨ atomtypecheck mol = false ∨ chargecheck mol = true ∨
          ((threeDCheck c orc mol).1 = false ∧
            (hydrogencheck orc (threeDCheck c orc mol).2).1 = false ∧ c.addh = false)
        then st.fatal ++ [idx] else st.fatal := by
  unfold prepStep
  by_cases h1 : molcheck mol <;> by_cases h2 : atomtypecheck mol <;>
    by_cases h3 : chargecheck mol <;>
      by_cases h4 : (threeDCheck c orc mol).1 <;>
        by_cases h5 : (hydrogencheck orc (threeDCheck c orc mol).2).1 <;>
          by_cases h6 : c.addh <;>
            simp [h1, h2, h3, h4, h5, h6, apply_ite PrepState.fatal]

theorem prepStep_molsAfter (c : Calc) (orc : Oracle) (st : PrepState) (idx : ℕ) (mol : Mol) :
    (prepStep c orc st idx mol).molsAfter =
      st.molsAfter ++ [if molcheck mol = true ∧ atomtypecheck mol = true ∧
          chargecheck mol = false then (threeDCheck c orc mol).2 else mol] := by
  unfold prepStep
  by_cases h1 : molcheck mol <;> by_cases h2 : atomtypecheck mol <;>
    by_cases h3 : chargecheck mol <;>
      simp [h1, h2, h3, hydrogencheck, apply_ite PrepState.molsAfter]

/-- Membership in a diagnostic list after the whole loop, for any projection
that appends the current index exactly under its per-molecule condition. -/
theorem prepLoop_mem_generic (c : Calc) (orc : Oracle) (g : PrepState → List ℕ)
    (cond : Mol → Prop) [DecidablePred cond]
    (hstep : ∀ st idx mol, g (prepStep c orc st idx mol) =
      if cond mol then g st ++ [idx] else g st) :
    ∀ (ms : List Mol) (i0 : ℕ) (st : PrepState) (k : ℕ),
      k ∈ g (prepLoop c orc ms i0 st) ↔
        k ∈ g st ∨ ∃ j m, ms[j]? = some m ∧ k = i0 + j ∧ cond m := by
  intro ms
  induction ms with
  | nil =>
    intro i0 st k
    simp [prepLoop]
  | cons m t ih =>
    intro i0 st k
    show k ∈ g (prepLoop c orc t (i0 + 1) (prepStep c orc st i0 m)) ↔ _
    rw [ih]
    rw [hstep]
    constructor
    · rintro (hin | ⟨j, m2, hj, hk, hp⟩)
      · by_cases hm : cond m
        · rw [if_pos hm] at hin
          rcases List.mem_append.mp hin with h | h
          · exact Or.inl h
          · have hk0 : k = i0 := by simpa using h
            exact Or.inr ⟨0, m, by simp, by omega, hm⟩
        · rw [if_neg hm] at hin
          exact Or.inl hin
      · exact Or.inr ⟨j + 1, m2, by simpa using hj, by omega, hp⟩
    · rintro (hin | ⟨j, m2, hj, hk, hp⟩)
      · left
        by_cases hm : cond m
        · rw [if_pos hm]
          exact List.mem_append.mpr (Or.inl hin)
        · rw [if_neg hm]
          exact hin
      · cases j with
        | zero =>
          have hm2 : m = m2 := by simpa using hj
          subst hm2
          left
          rw [if_pos hp]
          refine List.mem_append.mpr (Or.inr ?_)
          simp only [List.mem_singleton]
          omega
        | succ j2 =>
          exact Or.inr ⟨j2, m2, by simpa using hj, by omega, hp⟩

/-- The molecule list after the whole loop: every input molecule, in order,
with exactly the geometry-check mutation applied to those that reach it. -/
theorem prepLoop_molsAfter (c : Calc) (orc : Oracle) :
    ∀ (ms : List Mol) (i0 : ℕ) (st : PrepState),
      (prepLoop c orc ms i0 st).molsAfter =
        st.molsAfter ++ ms.map (fun mol =>
          if molcheck mol = true ∧ atomtypecheck mol = true ∧ chargecheck mol = false
            then (threeDCheck c orc mol).2 else mol) := by
  intro ms
  induction ms with
  | nil =>
    intro i0 st
    simp [prepLoop]
  | cons m t ih =>
    intro i0 st
    show (prepLoop c orc t (i0 + 1) (prepStep c orc st i0 m)).molsAfter = _
    rw [ih, prepStep_molsAfter]
    simp [List.append_assoc]

/-- Inversion of a successful `_preprocess` call. -/
theorem preprocess_ok (c : Calc) (orc : Oracle) (mols : List Mol) (r : PrepResult)
    (hok : preprocess c orc mols = Except.ok r) :
    mols ≠ [] ∧
    r = ⟨(prepLoop c orc mols 0 prepInit).nonValidMols,
         (prepLoop c orc mols 0 prepInit).nonValidAtypes,
         (prepLoop c orc mols 0 prepInit).chargedIdx,
         (prepLoop c orc mols 0 prepInit).no3d,
         (prepLoop c orc mols 0 prepInit).noh,
         (prepLoop c orc mols 0 prepInit).fatal,
         (((prepLoop c orc mols 0 prepInit).molsAfter.enum.filter
             (fun im => !((prepLoop c orc mols 0 prepInit).fatal.contains im.1))).map Prod.snd),
         (prepLoop c orc mols 0 prepInit).molsAfter⟩ := by
  unfold preprocess at hok
  by_cases h : mols.length = 0
  · rw [if_pos h] at hok
    exact absurd hok (by simp)
  · rw [if_neg h] at hok
    refine ⟨by intro hnil; exact h (by simp [hnil]), ?_⟩
    exact (Except.ok.inj hok).symm

end Delfta

namespace Delfta

/-- C1: the claim states that the i-th valid molecule receives the i-th entry
of the dense per-task result, i.e. that the reassembly loop consumes the dense
sequence in forward order.  The source consumes it with `val.pop()`, which
removes the LAST element of a Python list, so with two valid molecules whose
single-energy outputs are `1` (for the one-atom `molA`) and `2` (for the
two-atom `molB`), the final `E_form` sequence is `[2, 1]`: position 0 receives
molecule 1's prediction and vice versa.  Forward-order consumption would have
produced `[1, 2]`. -/
theorem c1_reverse_consumption_eval :
    predictCore calcEform orcEval [molA, molB] 32 =
      Except.ok [("E_form", TaskOut.scalars [ScalarOut.val 2, ScalarOut.val 1])] ∧
    orcEval.netScalar "single_energy_direct" molA = [1] ∧
    orcEval.netScalar "single_energy_direct" molB = [2] := ⟨rfl, rfl, rfl⟩

/-- C2: the claim states that for every input of length `N ≥ 1` the output has
length exactly `N` regardless of how many molecules are fatal.  Two
counterexamples from the code: (a) with every molecule fatal and a non-charges
task requested, the `DataLoader` yields no batches and `np.vstack([])` raises,
so the call aborts with no output at all; (b) in direct mode with exactly one
valid molecule and `E_form` requested, `squeeze()` turns the `(1, 1)` stacked
array into a 0-D scalar, `tolist()` then yields a bare float, and the
reassembly loop's `val.pop()` raises `AttributeError`. -/
theorem c2_length_invariant_eval :
    predictCore calcEform orcEval [molBad] 32 =
      Except.error "need at least one array to concatenate" ∧
    predictCore calcEform orcEval [molA] 32 =
      Except.error "AttributeError: float object has no attribute pop" := ⟨rfl, rfl⟩

/-- C3: the claim states that streaming predict works for every positive
stream length (exact multiples of `batch_size` included) and accumulates
numeric tasks across chunks.  Two counterexamples from the code: (a) a
charges-only stream of length 2 with `batch_size = 2` triggers one final empty
chunk, and `predict([])` raises the "No molecules provided." error; (b) for any
numeric task the accumulation loop calls `batch[pred_k].tolist()` on the plain
Python list returned by single-shot `predict`, which raises `AttributeError`
(here: a stream of two molecules, one chunk, task `E_form`). -/
theorem c3_streaming_eval :
    predict calcCharges orcEval (PInput.gen [molA, molB]) 2 =
      Except.error "No molecules provided." ∧
    predict calcEform orcEval (PInput.gen [molA, molB]) 32 =
      Except.error "AttributeError: list object has no attribute tolist" := ⟨rfl, rfl⟩

/-- C9: an empty input sequence makes `predict` raise the global
"No molecules provided." error before any model or molecule work, for every
calculator configuration and every batch size; the `Except.error` result
carries no partial output. -/
theorem c9_empty_input (c : Calc) (orc : Oracle) (bs : ℕ) :
    predict c orc (PInput.list []) bs = Except.error "No molecules provided." := rfl

/-- C6: the validation checks run in the fixed order structure, atom-type,
charge (then geometry and hydrogens), short-circuiting on the first fatal
failure: a molecule failing the structure check lands in the invalid-structure
diagnostic only and is fatal, and never appears in any later check's
diagnostic; likewise an atom-type or charge failure skips all later checks. -/
theorem c6_short_circuit (c : Calc) (orc : Oracle) (mols : List Mol) (r : PrepResult)
    (hok : preprocess c orc mols = Except.ok r) (idx : ℕ) (mol : Mol)
    (hidx : mols[idx]? = some mol) :
    (molcheck mol = false →
      idx ∈ r.nonValidMols ∧ idx ∈ r.fatal ∧ idx ∉ r.nonValidAtypes ∧
        idx ∉ r.chargedIdx ∧ idx ∉ r.no3d ∧ idx ∉ r.noh) ∧
    (molcheck mol = true → atomtypecheck mol = false →
      idx ∈ r.nonValidAtypes ∧ idx ∈ r.fatal ∧ idx ∉ r.nonValidMols ∧
        idx ∉ r.chargedIdx ∧ idx ∉ r.no3d ∧ idx ∉ r.noh) ∧
    (molcheck mol = true → atomtypecheck mol = true → chargecheck mol = true →
      idx ∈ r.chargedIdx ∧ idx ∈ r.fatal ∧ idx ∉ r.nonValidMols ∧
        idx ∉ r.nonValidAtypes ∧ idx ∉ r.no3d ∧ idx ∉ r.noh) := by
  obtain ⟨hne, rfl⟩ := preprocess_ok c orc mols r hok
  have h1 := fun k => prepLoop_mem_generic c orc PrepState.nonValidMols
    (fun m => molcheck m = false) (prepStep_nonValidMols c orc) mols 0 prepInit k
  have h2 := fun k => prepLoop_mem_generic c orc PrepState.nonValidAtypes
    (fun m => molcheck m = true ∧ atomtypecheck m = false)
    (prepStep_nonValidAtypes c orc) mols 0 prepInit k
  have h3 := fun k => prepLoop_mem_generic c orc PrepState.chargedIdx
    (fun m => molcheck m = true ∧ atomtypecheck m = true ∧ chargecheck m = true)
    (prepStep_chargedIdx c orc) mols 0 prepInit k
  have h4 := fun k => prepLoop_mem_generic c orc PrepState.no3d
    (fun m => molcheck m = true ∧ atomtypecheck m = true ∧ chargecheck m = false ∧
      (threeDCheck c orc m).1 = false)
    (prepStep_no3d c orc) mols 0 prepInit k
  have h5 := fun k => prepLoop_mem_generic c orc PrepState.noh
    (fun m => molcheck m = true ∧ atomtypecheck m = true ∧ chargecheck m = false ∧
      (hydrogencheck orc (threeDCheck c orc m).2).1 = false)
    (prepStep_noh c orc) mols 0 prepInit k
  have h6 := fun k => prepLoop_mem_generic c orc PrepState.fatal
    (fun m => molcheck m = false ∨ atomtypecheck m = false ∨ chargecheck m = true ∨
      ((threeDCheck c orc m).1 = false ∧
        (hydrogencheck orc (threeDCheck c orc m).2).1 = false ∧ c.addh = false))
    (prepStep_fatal c orc) mols 0 prepInit k
  have hext : ∀ (l : List ℕ) (P : Mol → Prop),
      (∀ k, k ∈ l ↔ k ∈ ([] : List ℕ) ∨ ∃ j m, mols[j]? = some m ∧ k = 0 + j ∧ P m) →
      (idx ∈ l ↔ P mol) := by
    intro l P hiff
    constructor
    · intro h
      rcases (hiff idx).mp h with h0 | ⟨j, m2, hj, hje, hP⟩
      · simp at h0
      · have hj2 : j = idx := by omega
        subst hj2
        rw [hidx] at hj
        cases Option.some.inj hj
        exact hP
    · intro hP
      exact (hiff idx).mpr (Or.inr ⟨idx, mol, hidx, by omega, hP⟩)
  have e1 := hext _ _ h1
  have e2 := hext _ _ h2
  have e3 := hext _ _ h3
  have e4 := hext _ _ h4
  have e5 := hext _ _ h5
  have e6 := hext _ _ h6
  refine ⟨fun hmc => ⟨e1.mpr hmc, e6.mpr (Or.inl hmc), ?_, ?_, ?_, ?_⟩,
          fun hmc hat => ⟨e2.mpr ⟨hmc, hat⟩, e6.mpr (Or.inr (Or.inl hat)), ?_, ?_, ?_, ?_⟩,
          fun hmc hat hch => ⟨e3.mpr ⟨hmc, hat, hch⟩, e6.mpr (Or.inr (Or.inr (Or.inl hch))),
            ?_, ?_, ?_, ?_⟩⟩
  · intro h
    have := e2.mp h
    rw [hmc] at this
    simp at this
  · intro h
    have := e3.mp h
    rw [hmc] at this
    simp at this
  · intro h
    have := e4.mp h
    rw [hmc] at this
    simp at this
  · intro h
    have := e5.mp h
    rw [hmc] at this
    simp at this
  · intro h
    have := e1.mp h
    rw [hmc] at this
    simp at this
  · intro h
    have := e3.mp h
    rw [hat] at this
    simp at this
  · intro h
    have := e4.mp h
    rw [hat] at this
    simp at this
  · intro h
    have := e5.mp h
    rw [hat] at this
    simp at this
  · intro h
    have := e1.mp h
    rw [hmc] at this
    simp at this
  · intro h
    have := e2.mp h
    rw [hat] at this
    simp at this
  · intro h
    have := e4.mp h
    rw [hch] at this
    simp at this
  · intro h
    have := e5.mp h
    rw [hch] at this
    simp at this

/-- Witness instantiating C6 at a concrete three-molecule input whose first
entry fails the structure check. -/
theorem c6_short_circuit_witness :
    (0 : ℕ) ∈ ([0] : List ℕ) ∧ (0 : ℕ) ∈ ([0, 1, 2] : List ℕ) ∧
    (0 : ℕ) ∉ ([1] : List ℕ) ∧ (0 : ℕ) ∉ ([2] : List ℕ) ∧
    (0 : ℕ) ∉ ([] : List ℕ) ∧ (0 : ℕ) ∉ ([] : List ℕ) := by
  have h := c6_short_circuit calcEform orcEval [molBad, molAtypeBad, molCharged]
    ⟨[0], [1], [2], [], [], [0, 1, 2], [], [molBad, molAtypeBad, molCharged]⟩
    (by rfl) 0 molBad (by rfl)
  exact h.1 (by rfl)

/-- C10: validation never mutates a molecule through the hydrogen check (the
strip/re-add probe runs on a clone, whatever the `addh` flag), and the only
in-place mutation of an input molecule is the 3D embedding, applied exactly to
molecules that pass the structure, atom-type and charge checks, lack a 3D
conformation, and run under `force3d`. -/
theorem c10_validation_frame (c : Calc) (orc : Oracle) (mols : List Mol) (r : PrepResult)
    (hok : preprocess c orc mols = Except.ok r) (idx : ℕ) (mol : Mol)
    (hidx : mols[idx]? = some mol) :
    r.molsAfter[idx]? = some (if molcheck mol = true ∧ atomtypecheck mol = true ∧
        chargecheck mol = false ∧ mol.dim ≠ 3 ∧ c.force3d = true
      then orc.make3D mol else mol) ∧
    (hydrogencheck orc mol).2 = mol := by
  obtain ⟨hne, rfl⟩ := preprocess_ok c orc mols r hok
  refine ⟨?_, rfl⟩
  show (prepLoop c orc mols 0 prepInit).molsAfter[idx]? = _
  rw [prepLoop_molsAfter]
  show (prepInit.molsAfter ++ _)[idx]? = _
  rw [show prepInit.molsAfter = [] from rfl, List.nil_append, List.getElem?_map, hidx]
  show some _ = some _
  refine congrArg some ?_
  by_cases h1 : molcheck mol = true <;> by_cases h2 : atomtypecheck mol = true <;>
    by_cases h3 : chargecheck mol = false <;> by_cases h4 : mol.dim = 3 <;>
      by_cases h5 : c.force3d = true <;>
        simp [threeDCheck, h1, h2, h3, h4, h5]

/-- Witness instantiating C10 at a valid molecule lacking 3D coordinates under
`force3d`: the recorded mutation is exactly the 3D embedding. -/
theorem c10_validation_frame_witness :
    ([Mol.mk true [⟨6⟩] 3 0] : List Mol)[0]? =
      some (if molcheck molFlat = true ∧ atomtypecheck molFlat = true ∧
          chargecheck molFlat = false ∧ molFlat.dim ≠ 3 ∧ calcEform.force3d = true
        then orcEval.make3D molFlat else molFlat) ∧
    (hydrogencheck orcEval molFlat).2 = molFlat := by
  have h := c10_validation_frame calcEform orcEval [molFlat]
    ⟨[], [], [], [0], [], [], [⟨true, [⟨6⟩], 3, 0⟩], [⟨true, [⟨6⟩], 3, 0⟩]⟩
    (by rfl) 0 molFlat (by rfl)
  exact h

/-- C7: in delta mode a failure of the external baseline tool for a single
valid molecule is not caught: the first failing xTB call aborts the whole
`predict` call with that error, producing no results for any molecule. -/
theorem c7_baseline_failure_aborts (c : Calc) (orc : Oracle) (input : List Mol) (bs : ℕ)
    (r : PrepResult) (pre post : List Mol) (m : Mol) (e : String)
    (hdelta : c.delta = true)
    (hok : preprocess c orc input = Except.ok r)
    (hsplit : r.goodMols = pre ++ m :: post)
    (hpre : ∀ m2 ∈ pre, (orc.xtb m2 c.xtbopt).isOk = true)
    (herr : orc.xtb m c.xtbopt = Except.error e) :
    predictCore c orc input bs = Except.error e := by
  unfold predictCore
  rw [hok]
  simp only [okBind]
  rw [hdelta]
  simp only [if_true]
  rw [hsplit, getXtbProps_error c orc pre post m e hpre herr]
  simp only [errBind]

/-- Witness instantiating C7: two valid molecules, the xTB binary failing on
the first one, delta mode — the whole call returns that error. -/
theorem c7_baseline_failure_aborts_witness :
    predictCore calcChargesDelta orcFail [molA, molB] 32 =
      Except.error "xtb: normal termination failed" := by
  have h := c7_baseline_failure_aborts calcChargesDelta orcFail [molA, molB] 32
    ⟨[], [], [], [], [], [], [molA, molB], [molA, molB]⟩ [] [molB] molA
    "xtb: normal termination failed" (by rfl) (by rfl) (by rfl)
    (by intro m2 hm2; simp at hm2) (by rfl)
  exact h

end Delfta

namespace Delfta

/-! Model-resolver lemmas for C8. -/

theorem resolveTask_ok (d : Bool) (t : String) (h : specRecognised t) :
    resolveTask d t = Except.ok (specModelName d t) := by
  by_cases hm : (List.lookup t MULTITASK_ENDPOINTS).isSome = true
  · unfold resolveTask specModelName
    rw [if_pos hm, if_pos hm]
    rfl
  · have hcase : t = "charges" ∨ t = "E_form" := by
      rcases h with h | h | h
      · exact absurd h hm
      · exact Or.inl h
      · exact Or.inr h
    rcases hcase with hc | he
    · subst hc
      cases d <;> rfl
    · subst he
      cases d <;> rfl

theorem resolveTask_err (d : Bool) (t : String) (h : ¬ specRecognised t) :
    resolveTask d t = Except.error ("Task name `" ++ t ++ "` not recognised") := by
  unfold specRecognised at h
  push_neg at h
  unfold resolveTask
  simp [h.1, h.2.1, h.2.2]

theorem resolveTasks_mapM_ok (d : Bool) :
    ∀ (ts : List String), (∀ t ∈ ts, specRecognised t) →
      ts.mapM (resolveTask d) = Except.ok (ts.map (specModelName d)) := by
  intro ts
  induction ts with
  | nil => intro _; rfl
  | cons t ts ih =>
    intro h
    rw [List.mapM_cons, resolveTask_ok d t (h t (List.mem_cons_self t ts)),
      ih (fun u hu => h u (List.mem_cons_of_mem _ hu))]
    rfl

theorem resolveTasks_mapM_err (d : Bool) (t : String) (post : List String)
    (ht : ¬ specRecognised t) :
    ∀ (pre : List String), (∀ u ∈ pre, specRecognised u) →
      (pre ++ t :: post).mapM (resolveTask d) =
        Except.error ("Task name `" ++ t ++ "` not recognised") := by
  intro pre
  induction pre with
  | nil =>
    intro _
    rw [List.nil_append, List.mapM_cons, resolveTask_err d t ht]
    rfl
  | cons u us ih =>
    intro h
    rw [List.cons_append, List.mapM_cons,
      resolveTask_ok d u (h u (List.mem_cons_self u us)),
      okBind, ih (fun v hv => h v (List.mem_cons_of_mem _ hv))]
    rfl

/-- C8: the model resolver maps multitask-group tasks to `multitask`, `charges`
to `charges` and `E_form` to `single_energy`, appends `_delta`/`_direct` per
mode, deduplicates the identifiers (same members, no duplicates), and for any
other task name the constructor raises the unrecognised-task error — so no
calculator value exists, and neither model-weight resolution nor molecule
processing (both of which live inside `predict`, which needs the calculator)
can happen. -/
theorem c8_model_resolver (tasks : List String) (d f a x : Bool) (nd ndl : NormDict)
    (h0 : tasks ≠ ["all"]) :
    ((∀ t ∈ tasks, specRecognised t) →
      initCalc tasks d f a x nd ndl =
        Except.ok ⟨tasks, d, f, a, x, nd, ndl, (tasks.map (specModelName d)).dedup⟩ ∧
      ((tasks.map (specModelName d)).dedup).Nodup ∧
      (∀ s, s ∈ (tasks.map (specModelName d)).dedup ↔ s ∈ tasks.map (specModelName d))) ∧
    (∀ pre t post, tasks = pre ++ t :: post → (∀ u ∈ pre, specRecognised u) →
      ¬ specRecognised t →
      initCalc tasks d f a x nd ndl =
        Except.error ("Task name `" ++ t ++ "` not recognised")) := by
  constructor
  · intro hall
    refine ⟨?_, List.nodup_dedup _, fun s => List.mem_dedup⟩
    unfold initCalc resolveModels
    rw [if_neg h0]
    simp only [okBind]
    rw [resolveTasks_mapM_ok d tasks hall]
    rfl
  · intro pre t post hsplit hpre ht
    unfold initCalc resolveModels
    rw [if_neg h0]
    simp only [okBind]
    rw [hsplit, resolveTasks_mapM_err d t post ht pre hpre]
    rfl

/-- Witness instantiating C8 in both directions: a fully recognised task list
resolves to the deduplicated model identifiers, and a list containing the
unknown task name `bogus` raises at construction. -/
theorem c8_model_resolver_witness :
    initCalc ["E_form", "charges", "E_homo", "E_lumo"] true true true false ndEval ndEval =
      Except.ok ⟨["E_form", "charges", "E_homo", "E_lumo"], true, true, true, false,
        ndEval, ndEval,
        (["E_form", "charges", "E_homo", "E_lumo"].map (specModelName true)).dedup⟩ ∧
    initCalc ["E_form", "bogus"] true true true false ndEval ndEval =
      Except.error ("Task name `" ++ "bogus" ++ "` not recognised") := by
  constructor
  · exact ((c8_model_resolver ["E_form", "charges", "E_homo", "E_lumo"] true true true false
      ndEval ndEval (by decide)).1 (by decide)).1
  · exact (c8_model_resolver ["E_form", "bogus"] true true true false ndEval ndEval
      (by decide)).2 ["E_form"] "bogus" [] rfl (by decide) (by decide)

end Delfta

namespace Delfta

/-- The full-task calculator's model loop: the single-energy model stacks raw
rows, the multitask model stacks rows and inverse-scales them with the table
matching the mode, and the charges model yields the per-molecule atom-level
outputs. -/
theorem runModels_all (b : Bool) (nd ndl : NormDict) (orc : Oracle) (mols : List Mol)
    (bs : ℕ) (hbs : 0 < bs) (hne : mols ≠ [])
    (hatom : ∀ m ∈ mols,
      (orc.netAtom (if b then "charges_delta" else "charges_direct") m).length =
        m.atoms.length) :
    runModels (mkCalcAll b nd ndl) orc mols bs = Except.ok
      [((if b then "single_energy_delta" else "single_energy_direct"),
        ModelPred.mat (mols.map
          (orc.netScalar (if b then "single_energy_delta" else "single_energy_direct")))),
       ((if b then "multitask_delta" else "multitask_direct"),
        ModelPred.mat (invScale (mols.map
          (orc.netScalar (if b then "multitask_delta" else "multitask_direct")))
          (if b then ndl else nd))),
       ((if b then "charges_delta" else "charges_direct"),
        ModelPred.chlist (mols.map
          (orc.netAtom (if b then "charges_delta" else "charges_direct"))))] := by
  cases b
  · unfold runModels
    show List.mapM _ ["single_energy_direct", "multitask_direct", "charges_direct"] = _
    rw [List.mapM_cons, List.mapM_cons, List.mapM_cons, List.mapM_nil]
    rw [runModel_global _ _ _ _ _ contains_sdi_charges hbs hne]
    rw [runModel_global _ _ _ _ _ contains_mti_charges hbs hne]
    rw [runModel_charges _ _ _ _ _ contains_chi_charges hbs (by simpa using hatom)]
    simp [mkCalcAll]
  · unfold runModels
    show List.mapM _ ["single_energy_delta", "multitask_delta", "charges_delta"] = _
    rw [List.mapM_cons, List.mapM_cons, List.mapM_cons, List.mapM_nil]
    rw [runModel_global _ _ _ _ _ contains_sed_charges hbs hne]
    rw [runModel_global _ _ _ _ _ contains_mtd_charges hbs hne]
    rw [runModel_charges _ _ _ _ _ contains_chd_charges hbs (by simpa using hatom)]
    simp [mkCalcAll]

/-- The inverse-scaled multitask column, entry by entry. -/
theorem invScale_column (mols : List Mol) (f : Mol → List ℚ) (nd : NormDict) (j : ℕ)
    (hw : ∀ m ∈ mols, (f m).length = 4) (hj : j < 4)
    (hs : nd.scale.length = 4) (hl : nd.location.length = 4) :
    (invScale (mols.map f) nd).map (fun r => r.getD j 0) =
      mols.map (fun m => (f m).getD j 0 * nd.scale.getD j 0 + nd.location.getD j 0) := by
  unfold invScale
  rw [List.map_map, List.map_map]
  apply List.map_congr_left
  intro m hm
  show (rowScale nd (f m)).getD j 0 = _
  rw [rowScale_getD nd (f m) j (by rw [hw m hm]; omega) (by rw [hs]; omega) (by rw [hl]; omega)]

end Delfta

namespace Delfta

/-- C5: inverse min-max normalization (`raw * scale + location`) is applied to
the multitask model's output in both modes, with the table selected by the
mode (`normDelta` in delta mode, `normDirect` in direct mode), while the
single-task `single_energy` model's output reaches `E_form` raw — squeezed but
never scaled: no normalization table appears in the `E_form` (or `charges`)
entry, in either mode. -/
theorem c5_multitask_normalization (b : Bool) (nd ndl : NormDict) (orc : Oracle)
    (mols : List Mol) (bs : ℕ) (hbs : 0 < bs) (hne : mols ≠ [])
    (hatom : ∀ m ∈ mols,
      (orc.netAtom (if b then "charges_delta" else "charges_direct") m).length =
        m.atoms.length)
    (hw4 : ∀ m ∈ mols,
      (orc.netScalar (if b then "multitask_delta" else "multitask_direct") m).length = 4)
    (hs : (if b then ndl else nd).scale.length = 4)
    (hl : (if b then ndl else nd).location.length = 4) :
    runModels (mkCalcAll b nd ndl) orc mols bs = Except.ok
      [((if b then "single_energy_delta" else "single_energy_direct"),
        ModelPred.mat (mols.map
          (orc.netScalar (if b then "single_energy_delta" else "single_energy_direct")))),
       ((if b then "multitask_delta" else "multitask_direct"),
        ModelPred.mat (invScale (mols.map
          (orc.netScalar (if b then "multitask_delta" else "multitask_direct")))
          (if b then ndl else nd))),
       ((if b then "charges_delta" else "charges_direct"),
        ModelPred.chlist (mols.map
          (orc.netAtom (if b then "charges_delta" else "charges_direct"))))] ∧
    routePreds (mkCalcAll b nd ndl)
      [((if b then "single_energy_delta" else "single_energy_direct"),
        ModelPred.mat (mols.map
          (orc.netScalar (if b then "single_energy_delta" else "single_energy_direct")))),
       ((if b then "multitask_delta" else "multitask_direct"),
        ModelPred.mat (invScale (mols.map
          (orc.netScalar (if b then "multitask_delta" else "multitask_direct")))
          (if b then ndl else nd))),
       ((if b then "charges_delta" else "charges_direct"),
        ModelPred.chlist (mols.map
          (orc.netAtom (if b then "charges_delta" else "charges_direct"))))] =
      [("E_form", npSqueeze (mols.map
          (orc.netScalar (if b then "single_energy_delta" else "single_energy_direct")))),
       ("E_homo", Dense.d1 (mols.map (fun m =>
          (orc.netScalar (if b then "multitask_delta" else "multitask_direct") m).getD 0 0 *
            (if b then ndl else nd).scale.getD 0 0 +
            (if b then ndl else nd).location.getD 0 0))),
       ("E_lumo", Dense.d1 (mols.map (fun m =>
          (orc.netScalar (if b then "multitask_delta" else "multitask_direct") m).getD 1 0 *
            (if b then ndl else nd).scale.getD 1 0 +
            (if b then ndl else nd).location.getD 1 0))),
       ("E_gap", Dense.d1 (mols.map (fun m =>
          (orc.netScalar (if b then "multitask_delta" else "multitask_direct") m).getD 2 0 *
            (if b then ndl else nd).scale.getD 2 0 +
            (if b then ndl else nd).location.getD 2 0))),
       ("dipole", Dense.d1 (mols.map (fun m =>
          (orc.netScalar (if b then "multitask_delta" else "multitask_direct") m).getD 3 0 *
            (if b then ndl else nd).scale.getD 3 0 +
            (if b then ndl else nd).location.getD 3 0))),
       ("charges", Dense.dch (mols.map
          (orc.netAtom (if b then "charges_delta" else "charges_direct"))))] := by
  refine ⟨runModels_all b nd ndl orc mols bs hbs hne hatom, ?_⟩
  rw [routePreds_all b nd ndl]
  rw [invScale_column mols _ _ 0 hw4 (by omega) hs hl,
    invScale_column mols _ _ 1 hw4 (by omega) hs hl,
    invScale_column mols _ _ 2 hw4 (by omega) hs hl,
    invScale_column mols _ _ 3 hw4 (by omega) hs hl]

/-- Witness instantiating C5 in direct mode at two concrete molecules,
discharging every hypothesis: the multitask entry is inverse-scaled with the
direct table, the single-energy entry is the raw stacked rows. -/
theorem c5_multitask_normalization_witness :
    (0 : ℕ) < 32 ∧ ([molA, molB] : List Mol) ≠ [] ∧
    runModels (mkCalcAll false ndEval ⟨[], []⟩) orcEval [molA, molB] 32 = Except.ok
      [("single_energy_direct",
        ModelPred.mat ([molA, molB].map (orcEval.netScalar "single_energy_direct"))),
       ("multitask_direct",
        ModelPred.mat (invScale ([molA, molB].map (orcEval.netScalar "multitask_direct"))
          ndEval)),
       ("charges_direct",
        ModelPred.chlist ([molA, molB].map (orcEval.netAtom "charges_direct")))] := by
  refine ⟨by decide, by decide, ?_⟩
  exact (c5_multitask_normalization false ndEval ⟨[], []⟩ orcEval [molA, molB] 32
    (by decide) (by decide) (by decide) (by decide) (by decide) (by decide)).1

end Delfta

namespace Delfta

theorem deltaCorrect_nil (xtbp : List (String × List PyProp)) :
    deltaCorrect [] xtbp = Except.ok [] := rfl

/-- One scalar-task step of the delta-correction loop. -/
theorem deltaCorrect_cons_scalar (k : String) (dv : Dense) (rest : List (String × Dense))
    (xtbp : List (String × List PyProp)) (col : List ℚ) (dres : Dense)
    (hk : ¬ (k = "charges"))
    (hcol : toArr1 (lookupD xtbp k) = Except.ok col)
    (hadd : addDense dv col = Except.ok dres) :
    deltaCorrect ((k, dv) :: rest) xtbp =
      (deltaCorrect rest xtbp) >>= fun rs => Except.ok ((k, dres) :: rs) := by
  unfold deltaCorrect
  rw [List.mapM_cons]
  show ((if k = "charges" then _ else _) >>= _) = _
  rw [if_neg hk]
  simp only [hcol, okBind, hadd, pureIsOk]

/-- The charges step of the delta-correction loop. -/
theorem deltaCorrect_cons_charges (arrs : List (List ℚ)) (rest : List (String × Dense))
    (xtbp : List (String × List PyProp)) (corr : List (List ℚ))
    (hmm : (arrs.zip (lookupD xtbp "charges")).mapM (fun p => addChargeProp p.1 p.2) =
      Except.ok corr) :
    deltaCorrect (("charges", Dense.dch arrs) :: rest) xtbp =
      (deltaCorrect rest xtbp) >>= fun rs => Except.ok (("charges", Dense.dch corr) :: rs) := by
  unfold deltaCorrect
  rw [List.mapM_cons]
  show ((if ("charges" : String) = "charges" then _ else _) >>= _) = _
  rw [if_pos rfl]
  simp only [hmm, okBind, pureIsOk]

/-- The scalar-task broadcast addition, after squeezing a one-column stack. -/
theorem addDense_squeeze (mols : List Mol) (f : Mol → List ℚ) (col : List ℚ)
    (hw1 : ∀ m ∈ mols, (f m).length = 1) (hcol : col.length = mols.length) :
    addDense (npSqueeze (mols.map f)) col =
      Except.ok (Dense.d1 (List.zipWith (fun a bb => a + bb)
        (mols.map (fun m => (f m).headD 0)) col)) := by
  have hA : ∀ r ∈ mols.map f, r.length = 1 := by
    intro r hr
    rcases List.mem_map.mp hr with ⟨m, hm, rfl⟩
    exact hw1 m hm
  rw [npSqueeze_col _ hA]
  by_cases hlen : (mols.map f).length = 1
  · rw [if_pos hlen]
    rcases List.length_eq_one.mp (by simpa using hlen) with ⟨m, rfl⟩
    rcases List.length_eq_one.mp (by simpa using hcol) with ⟨bb, rfl⟩
    show Except.ok (Dense.d1 [(f m).headD 0 + bb]) = _
    rfl
  · rw [if_neg hlen]
    show (do
        let rr ← npAdd1 ((mols.map f).map (fun r : List ℚ => r.headD 0)) col
        pure (Dense.d1 rr)) = _
    rw [npAdd1_eq _ _ (by simp [hcol])]
    simp only [okBind, pureIsOk]
    rw [List.map_map]
    rfl

end Delfta

namespace Delfta

/-- Elementwise addition of an aggregated 1-D task array and its baseline
column of matching length. -/
theorem addDense_d1 (xs col : List ℚ) (h : xs.length = col.length) :
    addDense (Dense.d1 xs) col = Except.ok (Dense.d1 (List.zipWith (fun a b => a + b) xs col)) := by
  show (do
      let rr ← npAdd1 xs col
      pure (Dense.d1 rr)) = _
  rw [npAdd1_eq xs col h]
  rfl

/-- C4: in delta mode, for every valid molecule, the corrected value of every
non-charge task is exactly `learnedDelta + baseline` — the learned delta being
the routed dense entry (the squeezed raw single-energy output for `E_form`,
the inverse-scaled multitask column for the four multitask tasks) and the
baseline being that molecule's xTB observable; and the corrected `charges`
entry for each molecule is the elementwise sum of its learned per-atom deltas
and its per-atom baseline, with length equal to that molecule's atom count. -/
theorem c4_delta_corrector (nd ndl : NormDict) (orc : Oracle) (mols : List Mol) (bs : ℕ)
    (xtbp : List (String × List PyProp)) (base : String → List ℚ) (baseCh : List (List ℚ))
    (hbs : 0 < bs) (hne : mols ≠ [])
    (hw1 : ∀ m ∈ mols, (orc.netScalar "single_energy_delta" m).length = 1)
    (hw4 : ∀ m ∈ mols, (orc.netScalar "multitask_delta" m).length = 4)
    (hs4 : ndl.scale.length = 4) (hl4 : ndl.location.length = 4)
    (hatom : ∀ m ∈ mols, (orc.netAtom "charges_delta" m).length = m.atoms.length)
    (hcols : ∀ t ∈ (["E_form", "E_homo", "E_lumo", "E_gap", "dipole"] : List String),
      lookupD xtbp t = (base t).map PyProp.s ∧ (base t).length = mols.length)
    (hch : lookupD xtbp "charges" = baseCh.map PyProp.v)
    (hchlen : List.Forall₂ (fun m bb => bb.length = m.atoms.length) mols baseCh) :
    runModels (mkCalcAll true nd ndl) orc mols bs = Except.ok
      [("single_energy_delta",
        ModelPred.mat (mols.map (orc.netScalar "single_energy_delta"))),
       ("multitask_delta",
        ModelPred.mat (invScale (mols.map (orc.netScalar "multitask_delta")) ndl)),
       ("charges_delta",
        ModelPred.chlist (mols.map (orc.netAtom "charges_delta")))] ∧
    deltaCorrect (routePreds (mkCalcAll true nd ndl)
      [("single_energy_delta",
        ModelPred.mat (mols.map (orc.netScalar "single_energy_delta"))),
       ("multitask_delta",
        ModelPred.mat (invScale (mols.map (orc.netScalar "multitask_delta")) ndl)),
       ("charges_delta",
        ModelPred.chlist (mols.map (orc.netAtom "charges_delta")))]) xtbp = Except.ok
      [("E_form", Dense.d1 (List.zipWith (fun a bb => a + bb)
          (mols.map (fun m => (orc.netScalar "single_energy_delta" m).headD 0))
          (base "E_form"))),
       ("E_homo", Dense.d1 (List.zipWith (fun a bb => a + bb)
          (mols.map (fun m => (orc.netScalar "multitask_delta" m).getD 0 0 *
            ndl.scale.getD 0 0 + ndl.location.getD 0 0)) (base "E_homo"))),
       ("E_lumo", Dense.d1 (List.zipWith (fun a bb => a + bb)
          (mols.map (fun m => (orc.netScalar "multitask_delta" m).getD 1 0 *
            ndl.scale.getD 1 0 + ndl.location.getD 1 0)) (base "E_lumo"))),
       ("E_gap", Dense.d1 (List.zipWith (fun a bb => a + bb)
          (mols.map (fun m => (orc.netScalar "multitask_delta" m).getD 2 0 *
            ndl.scale.getD 2 0 + ndl.location.getD 2 0)) (base "E_gap"))),
       ("dipole", Dense.d1 (List.zipWith (fun a bb => a + bb)
          (mols.map (fun m => (orc.netScalar "multitask_delta" m).getD 3 0 *
            ndl.scale.getD 3 0 + ndl.location.getD 3 0)) (base "dipole"))),
       ("charges", Dense.dch (List.zipWith (fun a bb => List.zipWith (fun x y => x + y) a bb)
          (mols.map (orc.netAtom "charges_delta")) baseCh))] ∧
    (List.zipWith (fun a bb => List.zipWith (fun x y => x + y) a bb)
        (mols.map (orc.netAtom "charges_delta")) baseCh).map List.length =
      mols.map (fun m => m.atoms.length) := by
  refine ⟨runModels_all true nd ndl orc mols bs hbs hne hatom, ?_,
    zipAdd_lengths mols _ baseCh hatom hchlen⟩
  have hroute : routePreds (mkCalcAll true nd ndl)
      [("single_energy_delta",
        ModelPred.mat (mols.map (orc.netScalar "single_energy_delta"))),
       ("multitask_delta",
        ModelPred.mat (invScale (mols.map (orc.netScalar "multitask_delta")) ndl)),
       ("charges_delta",
        ModelPred.chlist (mols.map (orc.netAtom "charges_delta")))] =
      [("E_form", npSqueeze (mols.map (orc.netScalar "single_energy_delta"))),
       ("E_homo", Dense.d1 ((invScale (mols.map (orc.netScalar "multitask_delta")) ndl).map
          (fun r => r.getD 0 0))),
       ("E_lumo", Dense.d1 ((invScale (mols.map (orc.netScalar "multitask_delta")) ndl).map
          (fun r => r.getD 1 0))),
       ("E_gap", Dense.d1 ((invScale (mols.map (orc.netScalar "multitask_delta")) ndl).map
          (fun r => r.getD 2 0))),
       ("dipole", Dense.d1 ((invScale (mols.map (orc.netScalar "multitask_delta")) ndl).map
          (fun r => r.getD 3 0))),
       ("charges", Dense.dch (mols.map (orc.netAtom "charges_delta")))] :=
    routePreds_all true nd ndl _ _ _
  rw [hroute]
  rw [invScale_column mols _ ndl 0 hw4 (by omega) hs4 hl4,
    invScale_column mols _ ndl 1 hw4 (by omega) hs4 hl4,
    invScale_column mols _ ndl 2 hw4 (by omega) hs4 hl4,
    invScale_column mols _ ndl 3 hw4 (by omega) hs4 hl4]
  have hef : addDense (npSqueeze (mols.map (orc.netScalar "single_energy_delta")))
      (base "E_form") = Except.ok (Dense.d1 (List.zipWith (fun a bb => a + bb)
        (mols.map (fun m => (orc.netScalar "single_energy_delta" m).headD 0))
        (base "E_form"))) :=
    addDense_squeeze mols _ _ hw1 (hcols "E_form" (by decide)).2
  have hmt : ∀ (t : String) (j : ℕ), t ∈ (["E_form", "E_homo", "E_lumo", "E_gap", "dipole"] :
      List String) →
      addDense (Dense.d1 (mols.map (fun m => (orc.netScalar "multitask_delta" m).getD j 0 *
        ndl.scale.getD j 0 + ndl.location.getD j 0))) (base t) =
      Except.ok (Dense.d1 (List.zipWith (fun a bb => a + bb)
        (mols.map (fun m => (orc.netScalar "multitask_delta" m).getD j 0 *
          ndl.scale.getD j 0 + ndl.location.getD j 0)) (base t))) := by
    intro t j ht
    exact addDense_d1 _ _ (by rw [List.length_map, (hcols t ht).2])
  have hcg : ((mols.map (orc.netAtom "charges_delta")).zip (lookupD xtbp "charges")).mapM
      (fun p => addChargeProp p.1 p.2) =
      Except.ok (List.zipWith (fun a bb => List.zipWith (fun x y => x + y) a bb)
        (mols.map (orc.netAtom "charges_delta")) baseCh) := by
    rw [hch]
    exact zipAdd_mapM _ baseCh (forall2_map_left mols _ baseCh hatom hchlen)
  have hcol : ∀ t ∈ (["E_form", "E_homo", "E_lumo", "E_gap", "dipole"] : List String),
      toArr1 (lookupD xtbp t) = Except.ok (base t) := by
    intro t ht
    rw [(hcols t ht).1]
    exact toArr1_map_s _
  rw [deltaCorrect_cons_scalar "E_form" _ _ _ (base "E_form") _ (by decide)
      (hcol "E_form" (by decide)) hef,
    deltaCorrect_cons_scalar "E_homo" _ _ _ (base "E_homo") _ (by decide)
      (hcol "E_homo" (by decide)) (hmt "E_homo" 0 (by decide)),
    deltaCorrect_cons_scalar "E_lumo" _ _ _ (base "E_lumo") _ (by decide)
      (hcol "E_lumo" (by decide)) (hmt "E_lumo" 1 (by decide)),
    deltaCorrect_cons_scalar "E_gap" _ _ _ (base "E_gap") _ (by decide)
      (hcol "E_gap" (by decide)) (hmt "E_gap" 2 (by decide)),
    deltaCorrect_cons_scalar "dipole" _ _ _ (base "dipole") _ (by decide)
      (hcol "dipole" (by decide)) (hmt "dipole" 3 (by decide)),
    deltaCorrect_cons_charges _ _ _ _ hcg,
    deltaCorrect_nil]
  simp only [okBind]

end Delfta

namespace Delfta

/-- Witness instantiating C4 at two concrete molecules with the concrete xTB
observable dictionary `xtbpW`, discharging every hypothesis. -/
theorem c4_delta_corrector_witness :
    (0 : ℕ) < 32 ∧ ([molA, molB] : List Mol) ≠ [] ∧
    deltaCorrect (routePreds (mkCalcAll true ⟨[], []⟩ ndEval)
      [("single_energy_delta",
        ModelPred.mat ([molA, molB].map (orcEval.netScalar "single_energy_delta"))),
       ("multitask_delta",
        ModelPred.mat (invScale ([molA, molB].map (orcEval.netScalar "multitask_delta"))
          ndEval)),
       ("charges_delta",
        ModelPred.chlist ([molA, molB].map (orcEval.netAtom "charges_delta")))]) xtbpW =
      Except.ok
      [("E_form", Dense.d1 (List.zipWith (fun a bb => a + bb)
          ([molA, molB].map (fun m => (orcEval.netScalar "single_energy_delta" m).headD 0))
          (baseW "E_form"))),
       ("E_homo", Dense.d1 (List.zipWith (fun a bb => a + bb)
          ([molA, molB].map (fun m => (orcEval.netScalar "multitask_delta" m).getD 0 0 *
            ndEval.scale.getD 0 0 + ndEval.location.getD 0 0)) (baseW "E_homo"))),
       ("E_lumo", Dense.d1 (List.zipWith (fun a bb => a + bb)
          ([molA, molB].map (fun m => (orcEval.netScalar "multitask_delta" m).getD 1 0 *
            ndEval.scale.getD 1 0 + ndEval.location.getD 1 0)) (baseW "E_lumo"))),
       ("E_gap", Dense.d1 (List.zipWith (fun a bb => a + bb)
          ([molA, molB].map (fun m => (orcEval.netScalar "multitask_delta" m).getD 2 0 *
            ndEval.scale.getD 2 0 + ndEval.location.getD 2 0)) (baseW "E_gap"))),
       ("dipole", Dense.d1 (List.zipWith (fun a bb => a + bb)
          ([molA, molB].map (fun m => (orcEval.netScalar "multitask_delta" m).getD 3 0 *
            ndEval.scale.getD 3 0 + ndEval.location.getD 3 0)) (baseW "dipole"))),
       ("charges", Dense.dch (List.zipWith (fun a bb => List.zipWith (fun x y => x + y) a bb)
          ([molA, molB].map (orcEval.netAtom "charges_delta")) baseChW))] ∧
    (List.zipWith (fun a bb => List.zipWith (fun x y => x + y) a bb)
        ([molA, molB].map (orcEval.netAtom "charges_delta")) baseChW).map List.length =
      [molA, molB].map (fun m => m.atoms.length) := by
  have h := c4_delta_corrector ⟨[], []⟩ ndEval orcEval [molA, molB] 32 xtbpW baseW baseChW
    (by decide) (by decide)
    (by intro m hm; fin_cases hm <;> rfl)
    (by intro m hm; fin_cases hm <;> rfl)
    (by decide) (by decide)
    (by intro m hm; fin_cases hm <;> rfl)
    (by intro t ht; fin_cases ht <;> exact ⟨rfl, rfl⟩)
    (by rfl)
    (List.Forall₂.cons rfl (List.Forall₂.cons rfl List.Forall₂.nil))
  exact ⟨by decide, by decide, h.2.1, h.2.2⟩

end Delfta
